import Mathlib

/-!
# v8u.hpp: identity bridge and exception translation

Shallow embedding of `src/v8u.hpp` (the branch compiled for Node before
0.11.8, the one whose expansions type-check against `v8::Arguments`), over an
explicit model of the part of the V8 and Node API the header calls into.

* `namespace v8`   : script values, handles, persistent storage cells,
  `ThrowException`, `String::New`, `Exception::*Error`, `Function::NewInstance`.
* `namespace node` : `node::ObjectWrap` (`handle_`, `Wrap`, `Unwrap`).
* `namespace v8u`  : the header itself, one definition per macro or function.
-/

namespace v8

/-- The five error constructors of `v8::Exception`. -/
inductive ErrorKind
  | Error
  | RangeError
  | ReferenceError
  | SyntaxError
  | TypeError
  deriving DecidableEq, Repr

/-- A script value as seen through a handle. Heap objects are referred to by
their identity `id` (their index in `Host.objects`). `released c` is what a read
through a handle to the storage cell `c` finds once that cell has been
disposed: the cell no longer holds a script value. -/
inductive Value
  | undefined
  | number (n : Int)
  | string (s : List Char)
  | external (ptr : Nat)
  | error (kind : ErrorKind) (message : List Char)
  | object (id : Nat)
  | released (cell : Nat)
  deriving DecidableEq, Repr

/-- Result of `value->IsExternal()`. -/
def Value.IsExternal : Value → Bool
  | .external _ => true
  | _ => false

/-- A `v8::Handle<T>`: empty, a scoped (`Local`) handle, or a handle to a
persistent storage cell. -/
inductive Handle
  | empty
  | scoped (v : Value)
  | global (cell : Nat)
  deriving DecidableEq, Repr

/-- Result of `handle.IsEmpty()`. -/
def Handle.IsEmpty : Handle → Bool
  | .empty => true
  | _ => false

/-- A `v8::Persistent<T>`: empty, or the storage cell it refers to. -/
abbrev Persistent := Option Nat

/-- A persistent handle used where a `v8::Handle<T>` is expected
(`Persistent<T>` derives from `Handle<T>`). -/
def Persistent.toHandle : Persistent → Handle
  | none => .empty
  | some c => .global c

/-- One persistent storage cell: the value registered in it, how many times
it has been disposed, and whether it has been made weak. A cell is live while
`disposals = 0`. Cells are never reused, so a cell is one registration. -/
structure Cell where
  value : Value
  disposals : Nat
  weak : Bool
  deriving DecidableEq, Repr

/-- A heap object: a plain script object, or an instance of a function
template declared with `V8_DEF_TYPE` (which gives it one internal field,
`field0`, unset until a native pointer is stored in it). -/
inductive JSObject
  | plain
  | ofTemplate (templ : Nat) (field0 : Option Nat)
  deriving DecidableEq, Repr

/-- The state of the host runtime: the object heap, the persistent storage
cells, the parent of every function template (`Inherit`), and the exceptions
handed to `ThrowException`, oldest first. -/
structure Host where
  objects : List JSObject
  cells : List Cell
  parents : List (Option Nat)
  scheduled : List Value
  deriving DecidableEq, Repr

/-- What a handle refers to: nothing for an empty handle, the value of a
scoped handle, the registered value of a live cell, and `released` for a cell
that has been disposed (or was never registered). -/
def Host.read (host : Host) : Handle → Option Value
  | .empty => none
  | .scoped v => some v
  | .global c =>
    match host.cells[c]? with
    | some cell => if cell.disposals = 0 then some cell.value else some (.released c)
    | none => some (.released c)

/-- Apply `f` to the storage cell `c`, if there is one. -/
def Host.modifyCell (host : Host) (c : Nat) (f : Cell → Cell) : Host :=
  match host.cells[c]? with
  | some cell => { host with cells := host.cells.set c (f cell) }
  | none => host

/-- `v8::Persistent<T>::New(that)`: an empty handle gives an empty persistent
handle; otherwise a fresh storage cell is registered for the value. -/
def Persistent.New (that : Handle) (host : Host) : Host × Persistent :=
  match host.read that with
  | none => (host, none)
  | some v =>
    ({ host with cells := host.cells ++ [{ value := v, disposals := 0, weak := false }] },
      some host.cells.length)

/-- `persistent.Dispose()`: nothing on an empty handle; otherwise the storage
cell is released. The handle itself keeps pointing at the cell. -/
def Persistent.Dispose (p : Persistent) (host : Host) : Host :=
  match p with
  | none => host
  | some c => host.modifyCell c (fun cell => { cell with disposals := cell.disposals + 1 })

/-- `persistent.MakeWeak(..)`, as called by `node::ObjectWrap::MakeWeak`. -/
def Persistent.MakeWeak (p : Persistent) (host : Host) : Host :=
  match p with
  | none => host
  | some c => host.modifyCell c (fun cell => { cell with weak := true })

/-- `v8::ThrowException(value)`: schedules the value the handle refers to
(`undefined` for an empty handle) and returns `v8::Undefined()`. -/
def ThrowException (value : Handle) (host : Host) : Host × Handle :=
  match host.read value with
  | none => ({ host with scheduled := host.scheduled ++ [.undefined] }, .scoped .undefined)
  | some v => ({ host with scheduled := host.scheduled ++ [v] }, .scoped .undefined)

/-- `scope.Close(value)`: a scoped handle, valid in the enclosing scope, to
what `value` refers to. -/
def HandleScope.Close (value : Handle) (host : Host) : Handle :=
  match host.read value with
  | none => .empty
  | some v => .scoped v

/-- The NUL character that ends a C string. -/
def NUL : Char := Char.ofNat 0

/-- `v8::String::New(data, length)`: the empty string for `length = 0`, the
characters before the first NUL for `length = -1` (the default), the first
`length` characters otherwise. Strings are lists of any length: the limit V8
puts on the length of a string, far below the range of `int`, is not part of
the model, and a `length()` is passed as the number it is. -/
def String.New (data : List Char) (length : Int) : List Char :=
  if length = 0 then []
  else if length = -1 then data.takeWhile (fun ch => ch != NUL)
  else data.take length.toNat

/-- `v8::Exception::Error(message)`. -/
def Exception.Error (message : List Char) : Handle := .scoped (.error .Error message)

/-- `v8::Exception::RangeError(message)`. -/
def Exception.RangeError (message : List Char) : Handle := .scoped (.error .RangeError message)

/-- `v8::Exception::ReferenceError(message)`. -/
def Exception.ReferenceError (message : List Char) : Handle :=
  .scoped (.error .ReferenceError message)

/-- `v8::Exception::SyntaxError(message)`. -/
def Exception.SyntaxError (message : List Char) : Handle := .scoped (.error .SyntaxError message)

/-- `v8::Exception::TypeError(message)`. -/
def Exception.TypeError (message : List Char) : Handle := .scoped (.error .TypeError message)

/-- The `v8::Arguments` of one callback invocation. -/
structure Arguments where
  values : List Value
  receiver : Value
  construct : Bool
  deriving DecidableEq, Repr

/-- `args.Length()`. -/
def Arguments.Length (args : Arguments) : Int := args.values.length

/-- `args[i]`: the i-th argument, `undefined` past the end. -/
def Arguments.index (args : Arguments) (i : Nat) : Value :=
  match args.values[i]? with
  | some v => v
  | none => .undefined

/-- `args.This()`. -/
def Arguments.This (args : Arguments) : Handle := .scoped args.receiver

/-- `args.IsConstructCall()`. -/
def Arguments.IsConstructCall (args : Arguments) : Bool := args.construct

/-- Walk up the `Inherit` chain from template `t` looking for `target`. -/
def inheritsFrom (parents : List (Option Nat)) (target : Nat) : Nat → Nat → Bool
  | 0, _ => false
  | fuel + 1, t =>
    if t = target then true
    else
      match parents[t]? with
      | some (some p) => inheritsFrom parents target fuel p
      | _ => false

end v8

/-! ## Native control flow -/

/-- What a callback body can throw, by the C++ type the handlers of
`__v8_wrap_end` distinguish. `handleValue` also stands for a thrown
`v8::Local<v8::Value>` (caught through its base class); `other` is any type no
handler names. -/
inductive Capsule
  | persistentValue (err : v8.Persistent)
  | stdException (what : List Char)
  | handleValue (err : v8.Handle)
  | valuePtr (err : v8.Handle)
  | stdString (err : List Char)
  | other (tag : Nat)
  deriving DecidableEq, Repr

/-- How a native function ends: it returns, it leaves by a C++ exception, or
the process dies (failed `assert`, null dereference). -/
inductive Outcome (α : Type)
  | ret (a : α)
  | thrown (c : Capsule)
  | abort
  deriving DecidableEq, Repr

/-- A native function acting on the host runtime. -/
abbrev Native (α : Type) := v8.Host → v8.Host × Outcome α

/-- Sequencing of native statements: the rest runs only after a return. -/
def Native.bind {α β : Type} (m : Native α) (f : α → Native β) : Native β := fun host =>
  match m host with
  | (host1, .ret a) => f a host1
  | (host1, .thrown c) => (host1, .thrown c)
  | (host1, .abort) => (host1, .abort)

instance : Monad Native where
  pure a := fun host => (host, .ret a)
  bind := Native.bind

namespace v8

/-- `templ->HasInstance(obj)`: `obj` is an object instantiated from `templ`
or from a template that inherits from it; any other value gives `false`. The
handle is dereferenced, so an empty one ends the process. -/
def FunctionTemplate.HasInstance (templ : Nat) (obj : Handle) : Native Bool := fun host =>
  match host.read obj with
  | none => (host, .abort)
  | some (.object id) =>
    match host.objects[id]? with
    | some (.ofTemplate t _) =>
      (host, .ret (inheritsFrom host.parents templ (host.parents.length + 1) t))
    | _ => (host, .ret false)
  | some _ => (host, .ret false)

/-- `function->NewInstance(argc, argv)` for the function of the template
`templ`, whose invocation callback is `callback`: a fresh instance is
allocated and the callback is invoked on it as a construct call. A scheduled
exception makes the result empty; otherwise the result is the object the
callback returned, or the fresh instance if it returned no object. -/
def Function.NewInstance (templ : Nat) (callback : Arguments → Native Handle)
    (argv : List Value) : Native Handle := fun host =>
  let fresh := host.objects.length
  let host1 := { host with objects := host.objects ++ [.ofTemplate templ none] }
  match callback { values := argv, receiver := .object fresh, construct := true } host1 with
  | (host2, .ret r) =>
    if host2.scheduled.length ≠ host1.scheduled.length then (host2, .ret .empty)
    else
      match host2.read r with
      | some (.object id) => (host2, .ret (.scoped (.object id)))
      | _ => (host2, .ret (.scoped (.object fresh)))
  | (host2, .thrown c) => (host2, .thrown c)
  | (host2, .abort) => (host2, .abort)

end v8

namespace node

/-- A native instance deriving from `node::ObjectWrap`: its address (`this`)
and its `handle_` slot. -/
structure ObjectWrap where
  addr : Nat
  handle_ : v8.Persistent
  deriving DecidableEq, Repr

/-- `ObjectWrap::Wrap(handle)`: asserts that `handle_` is empty and that
`handle` is an object with an internal field, then registers a persistent
reference in `handle_`, stores `this` in internal field 0 and makes the
reference weak. -/
def ObjectWrap.Wrap (self : ObjectWrap) (handle : v8.Handle) : Native ObjectWrap := fun host =>
  if self.handle_.isSome then (host, .abort)
  else
    match host.read handle with
    | some (.object id) =>
      match host.objects[id]? with
      | some (.ofTemplate t _) =>
        let (host1, p) := v8.Persistent.New handle host
        let host2 := { host1 with objects := host1.objects.set id (.ofTemplate t (some self.addr)) }
        (v8.Persistent.MakeWeak p host2, .ret { self with handle_ := p })
      | _ => (host, .abort)
    | _ => (host, .abort)

/-- `ObjectWrap::Unwrap<T>(handle)`: asserts that `handle` is an object with
an internal field and returns the pointer stored in internal field 0 (`none`
is the null pointer of a field never set). -/
def ObjectWrap.Unwrap (handle : v8.Handle) : Native (Option Nat) := fun host =>
  match host.read handle with
  | some (.object id) =>
    match host.objects[id]? with
    | some (.ofTemplate _ field0) => (host, .ret field0)
    | _ => (host, .abort)
  | _ => (host, .abort)

end node

namespace v8u

open v8 node

/-! ## The header -/

/-- `V8_STHROW(VALUE)`: `return v8::ThrowException(VALUE)`. -/
def V8_STHROW (VALUE : Handle) : Native Handle := fun host =>
  let (host1, r) := ThrowException VALUE host
  (host1, .ret r)

/-- `V8_STHROW_NR(VALUE)`: `{v8::ThrowException(VALUE); return;}`. -/
def V8_STHROW_NR (VALUE : Handle) : Native Unit := fun host =>
  ((ThrowException VALUE host).1, .ret ())

/-- `V8_THROW(VALUE)`: `throw v8::Persistent<v8::Value>::New(VALUE)`. -/
def V8_THROW {α : Type} (VALUE : Handle) : Native α := fun host =>
  let (host1, p) := Persistent.New VALUE host
  (host1, .thrown (.persistentValue p))

/-- The handlers of `__v8_wrap_end(throw_type)`, in the order of the source;
each capsule is taken by the first handler whose type it matches, the last
handler `catch (...)` takes every other one. -/
def __v8_wrap_end {α : Type} (throw_type : Handle → Native α) (c : Capsule) : Native α :=
  fun host =>
  match c with
  | .persistentValue err =>
    let host1 := Persistent.Dispose err host
    throw_type (Persistent.toHandle err) host1
  | .stdException what => throw_type (Exception.Error (String.New what (-1))) host
  | .handleValue err => throw_type err host
  | .valuePtr err => throw_type err host
  | .stdString err => throw_type (Exception.Error (String.New err err.length)) host
  | .other _ => throw_type (Exception.Error (String.New "Unknown error!".toList (-1))) host

/-- `V8_WRAP_START() body V8_WRAP_END()`. -/
def V8_WRAP_END (body : Native Handle) : Native Handle := fun host =>
  match body host with
  | (host1, .ret r) => (host1, .ret r)
  | (host1, .thrown c) => __v8_wrap_end V8_STHROW c host1
  | (host1, .abort) => (host1, .abort)

/-- `V8_WRAP_START() body V8_WRAP_END_NR()`. -/
def V8_WRAP_END_NR (body : Native Unit) : Native Unit := fun host =>
  match body host with
  | (host1, .ret r) => (host1, .ret r)
  | (host1, .thrown c) => __v8_wrap_end V8_STHROW_NR c host1
  | (host1, .abort) => (host1, .abort)

/-- `CheckArguments(min, args)`. -/
def CheckArguments (min : Int) (args : Arguments) : Native Unit :=
  if args.Length < min then
    V8_THROW (Exception.RangeError (String.New "Not enough arguments.".toList (-1)))
  else pure ()

/-- `V8_CB(IDENTIFIER) body V8_CB_END()`. The body yields `some v` when it
leaves through `V8_RET(v)` and `none` when it runs to its end, where
`__v8_implicit_return` returns `v8::Undefined()`. -/
def V8_CB (body : Arguments → Native (Option Handle)) (args : Arguments) : Native Handle :=
  V8_WRAP_END (do
    let r ← body args
    match r with
    | some v => pure v
    | none => pure (.scoped .undefined))

/-- `Err(msg)`. -/
def Err (msg : List Char) : Handle := Exception.Error (String.New msg (-1))

/-- `RangeErr(msg)`. -/
def RangeErr (msg : List Char) : Handle := Exception.RangeError (String.New msg (-1))

/-- `ReferenceErr(msg)`. -/
def ReferenceErr (msg : List Char) : Handle := Exception.ReferenceError (String.New msg (-1))

/-- `SyntaxErr(msg)`. -/
def SyntaxErr (msg : List Char) : Handle := Exception.SyntaxError (String.New msg (-1))

/-- `TypeErr(msg)`. -/
def TypeErr (msg : List Char) : Handle := Exception.TypeError (String.New msg (-1))

/-- `V8_CTOR() body V8_CTOR_END()` (and `V8_ECTOR`): `__v8_ctor`, the body
with `hdl = args.This()` in scope, and the implicit `return hdl`. -/
def V8_CTOR (body : Handle → Arguments → Native (Option Handle)) (args : Arguments) :
    Native Handle := fun host =>
  if (args.index 0).IsExternal then (host, .ret args.This)
  else if !args.IsConstructCall then
    V8_STHROW (ReferenceErr "You must call this as a constructor".toList) host
  else
    V8_WRAP_END (do
      let hdl := args.This
      let r ← body hdl args
      match r with
      | some v => pure v
      | none => pure hdl) host

/-- `V8_SCTOR() { V8_CTOR_NO_ALL }`. -/
def V8_CTOR_NO_ALL (_args : Arguments) : Native Handle :=
  V8_STHROW (TypeErr "No instances of this exact type may be constructed.".toList)

/-- `V8_SCTOR() { V8_CTOR_NO_JS }`. -/
def V8_CTOR_NO_JS (args : Arguments) : Native Handle := fun host =>
  if (args.index 0).IsExternal then (host, .ret args.This)
  else V8_STHROW (TypeErr "You can\x27t construct instances of this type directly.".toList) host

/-- `V8_WRAP(INSTANCE)`: `(INSTANCE)->Wrap(hdl)`. -/
def V8_WRAP (INSTANCE : ObjectWrap) (hdl : Handle) : Native ObjectWrap := INSTANCE.Wrap hdl

/-- An exposed type: its static `_templ` (the function template set by
`NODE_TYPE_END`) and its static `NewInstance`, the invocation callback
`V8_DEF_TYPE` gives to the template. -/
structure ExposedType where
  _templ : Nat
  NewInstance : Arguments → Native Handle

namespace V8_TYPE

/-- `Wrapped()` as declared by `V8_TYPE(CPP_TYPE)`; the instance is passed
and returned explicitly. -/
def Wrapped (T : ExposedType) (self : ObjectWrap) : Native (ObjectWrap × Handle) := fun host =>
  let handle := Persistent.toHandle self.handle_
  if handle.IsEmpty then
    match Function.NewInstance T._templ T.NewInstance [Value.external self.addr] host with
    | (host1, .ret handle1) =>
      match self.Wrap handle1 host1 with
      | (host2, .ret self1) => (host2, .ret (self1, HandleScope.Close handle1 host2))
      | (host2, .thrown c) => (host2, .thrown c)
      | (host2, .abort) => (host2, .abort)
    | (host1, .thrown c) => (host1, .thrown c)
    | (host1, .abort) => (host1, .abort)
  else (host, .ret (self, HandleScope.Close handle host))

/-- `HasInstance(obj)` as declared by `V8_TYPE(CPP_TYPE)`. -/
def HasInstance (T : ExposedType) (obj : Handle) : Native Bool :=
  FunctionTemplate.HasInstance T._templ obj

/-- `Unwrap(obj)` as declared by `V8_TYPE(CPP_TYPE)`. -/
def Unwrap (T : ExposedType) (obj : Handle) : Native (Option Nat) := do
  if (← FunctionTemplate.HasInstance T._templ obj) then ObjectWrap.Unwrap obj
  else V8_THROW (Exception.TypeError (String.New "Invalid object unwrapped.".toList (-1)))

end V8_TYPE

namespace V8_ETYPE

/-- `TYPE::Wrapped()` as defined by `V8_ETYPE(TYPE)`. -/
def Wrapped (T : ExposedType) (self : ObjectWrap) : Native (ObjectWrap × Handle) := fun host =>
  let handle := Persistent.toHandle self.handle_
  if handle.IsEmpty then
    match Function.NewInstance T._templ T.NewInstance [Value.external self.addr] host with
    | (host1, .ret handle1) =>
      match self.Wrap handle1 host1 with
      | (host2, .ret self1) => (host2, .ret (self1, HandleScope.Close handle1 host2))
      | (host2, .thrown c) => (host2, .thrown c)
      | (host2, .abort) => (host2, .abort)
    | (host1, .thrown c) => (host1, .thrown c)
    | (host1, .abort) => (host1, .abort)
  else (host, .ret (self, HandleScope.Close handle host))

/-- `TYPE::HasInstance(obj)` as defined by `V8_ETYPE(TYPE)`. -/
def HasInstance (T : ExposedType) (obj : Handle) : Native Bool :=
  FunctionTemplate.HasInstance T._templ obj

/-- `TYPE::Unwrap(obj)` as defined by `V8_ETYPE(TYPE)`. -/
def Unwrap (T : ExposedType) (obj : Handle) : Native (Option Nat) := do
  if (← FunctionTemplate.HasInstance T._templ obj) then ObjectWrap.Unwrap obj
  else V8_THROW (TypeErr "Invalid object unwrapped.".toList)

end V8_ETYPE

/-! ### Persistent handles -/

/-- `ClearPersistent(handle)`; the handle is passed and returned
explicitly. -/
def ClearPersistent (handle : Persistent) (host : Host) : Host × Persistent :=
  if (Persistent.toHandle handle).IsEmpty then (host, handle)
  else (Persistent.Dispose handle host, none)

/-- `SetPersistent(handle, value)`. -/
def SetPersistent (handle : Persistent) (value : Handle) (host : Host) : Host × Persistent :=
  let (host1, handle1) := ClearPersistent handle host
  if value.IsEmpty then (host1, handle1)
  else Persistent.New value host1

/-- `Persist(handle)`. -/
def Persist (handle : Handle) (host : Host) : Host × Persistent := Persistent.New handle host

/-- A `Persisted<T>` guard: its address (`this`) and its private `handle`. -/
structure Persisted where
  addr : Nat
  handle : Persistent
  deriving DecidableEq, Repr

namespace Persisted

/-- `Persisted()`: the guard starts empty. -/
def empty (addr : Nat) : Persisted := { addr := addr, handle := none }

/-- `Persisted(value)`. -/
def ofValue (addr : Nat) (value : Handle) (host : Host) : Host × Persisted :=
  let (host1, p) := Persistent.New value host
  (host1, { addr := addr, handle := p })

/-- `~Persisted()`. -/
def destroy (self : Persisted) (host : Host) : Host :=
  if !(Persistent.toHandle self.handle).IsEmpty then Persistent.Dispose self.handle host
  else host

/-- `Persisted(other)`, the copy constructor. -/
def copy (addr : Nat) (other : Persisted) (host : Host) : Host × Persisted :=
  let (host1, p) := Persistent.New (Persistent.toHandle other.handle) host
  (host1, { addr := addr, handle := p })

/-- `operator*()`. -/
def get (self : Persisted) : Persistent := self.handle

/-- `operator=(other)`; the guard assigned to is returned. -/
def assign (self other : Persisted) (host : Host) : Host × Persisted :=
  if other.addr = self.addr then (host, self)
  else
    let (host1, p) := SetPersistent self.handle (Persistent.toHandle other.handle) host
    (host1, { self with handle := p })

/-- `IsEmpty()`. -/
def IsEmpty (self : Persisted) : Bool := (Persistent.toHandle self.handle).IsEmpty

/-- `Clear()`. -/
def Clear (self : Persisted) (host : Host) : Host × Persisted :=
  let (host1, p) := ClearPersistent self.handle host
  (host1, { self with handle := p })

end Persisted

/-! ### Sequences of operations on guards -/

/-- The storage of one `Persisted` object: alive with its `handle`, or
destroyed. -/
inductive GuardSlot
  | alive (handle : Persistent)
  | destroyed
  deriving DecidableEq, Repr

/-- The host together with the `Persisted` objects of the program, by
address. -/
structure GuardHeap where
  host : Host
  guards : List GuardSlot
  deriving DecidableEq, Repr

/-- One operation on the guards of a program. -/
inductive GuardOp
  | construct
  | constructFrom (value : Handle)
  | copyFrom (other : Nat)
  | assign (self other : Nat)
  | Clear (self : Nat)
  | destroy (self : Nat)
  deriving DecidableEq, Repr

namespace GuardHeap

/-- The guard living at address `a`, if one is alive there. -/
def guard (s : GuardHeap) (a : Nat) : Option Persisted :=
  match s.guards[a]? with
  | some (.alive p) => some { addr := a, handle := p }
  | _ => none

/-- One operation: a new guard is placed at the next address; an operation on
a guard runs the member function of `Persisted` on it. An operation that uses
an address where no guard is alive is not an execution of the program. -/
def step (s : GuardHeap) : GuardOp → Option GuardHeap
  | .construct =>
    some { s with guards := s.guards ++ [.alive (Persisted.empty s.guards.length).handle] }
  | .constructFrom value =>
    let (host1, g) := Persisted.ofValue s.guards.length value s.host
    some { host := host1, guards := s.guards ++ [.alive g.handle] }
  | .copyFrom other =>
    match s.guard other with
    | some o =>
      let (host1, g) := Persisted.copy s.guards.length o s.host
      some { host := host1, guards := s.guards ++ [.alive g.handle] }
    | none => none
  | .assign self other =>
    match s.guard self, s.guard other with
    | some a, some b =>
      let (host1, g) := a.assign b s.host
      some { host := host1, guards := s.guards.set self (.alive g.handle) }
    | _, _ => none
  | .Clear self =>
    match s.guard self with
    | some a =>
      let (host1, g) := a.Clear s.host
      some { host := host1, guards := s.guards.set self (.alive g.handle) }
    | none => none
  | .destroy self =>
    match s.guard self with
    | some a => some { host := a.destroy s.host, guards := s.guards.set self .destroyed }
    | none => none

/-- A finite sequence of operations. -/
def run (s : GuardHeap) : List GuardOp → Option GuardHeap
  | [] => some s
  | op :: ops =>
    match s.step op with
    | some s1 => s1.run ops
    | none => none

/-- The guard at address `g` is alive and holds the storage cell `c`. -/
def holds (s : GuardHeap) (g c : Nat) : Prop := s.guards[g]? = some (.alive (some c))

/-- A new guard at the next address, holding what `Persistent::New(value)`
gives. -/
def push (s : GuardHeap) (value : Handle) : GuardHeap :=
  { host := (Persistent.New value s.host).1,
    guards := s.guards ++ [.alive (Persistent.New value s.host).2] }

/-- The guard at `g`, which holds `p`, disposes what it holds and becomes
`slot`. -/
def release (s : GuardHeap) (g : Nat) (p : Persistent) (slot : GuardSlot) : GuardHeap :=
  { host := (ClearPersistent p s.host).1, guards := s.guards.set g slot }

/-- The empty guard at `g` takes what `Persistent::New(value)` gives. -/
def attach (s : GuardHeap) (g : Nat) (value : Handle) : GuardHeap :=
  { host := (Persistent.New value s.host).1,
    guards := s.guards.set g (.alive (Persistent.New value s.host).2) }

end GuardHeap

/-- The ownership invariant of the guards, relative to the cells `cells0` the
host had before any guard was made: those cells are untouched; a cell held by
a guard was registered later and is live; no two guards hold the same cell;
every cell registered later is either held by a guard or disposed exactly
once. -/
structure GuardInv (cells0 : List Cell) (s : GuardHeap) : Prop where
  frame : ∀ c, c < cells0.length → s.host.cells[c]? = cells0[c]?
  grow : cells0.length ≤ s.host.cells.length
  held_live : ∀ g c, s.holds g c →
    cells0.length ≤ c ∧ ∃ cell, s.host.cells[c]? = some cell ∧ cell.disposals = 0
  unshared : ∀ g g2 c, s.holds g c → s.holds g2 c → g = g2
  settled : ∀ c cell, cells0.length ≤ c → s.host.cells[c]? = some cell →
    (∃ g, s.holds g c) ∨ cell.disposals = 1

/-- The cell `c` is held by no guard and has been disposed exactly once. -/
def GuardHeap.Settled (s : GuardHeap) (c : Nat) : Prop :=
  (∀ g, ¬ s.holds g c) ∧ ∃ cell, s.host.cells[c]? = some cell ∧ cell.disposals = 1

/-- From `s` to `t` no guard loses a cell other than by disposing it exactly
once, and a cell that is disposed and held by nobody stays so. -/
def GuardHeap.Progress (s t : GuardHeap) : Prop :=
  (∀ g c, s.holds g c → t.holds g c ∨ t.Settled c) ∧ (∀ c, s.Settled c → t.Settled c)

/-! ### Predicates used in the statements -/

/-- The constructor of `T` accepts the native-origin marker: invoked with an
`External` as first argument it returns the receiver and does nothing else. -/
def AcceptsMarker (T : ExposedType) : Prop :=
  ∀ (args : Arguments) (host : Host),
    (args.index 0).IsExternal = true → T.NewInstance args host = (host, .ret args.This)

/-- The state after `Wrapped()` has linked a fresh script object to the
instance at `addr`. -/
def linkedHost (T : ExposedType) (addr : Nat) (host : Host) : Host :=
  { host with
    objects := host.objects ++ [.ofTemplate T._templ (some addr)]
    cells := host.cells ++
      [{ value := .object host.objects.length, disposals := 0, weak := true }] }

/-- The constructor of `T` is one the header provides: `V8_CTOR` (or
`V8_ECTOR`) around some body, `V8_CTOR_NO_JS`, or `V8_CTOR_NO_ALL`. -/
def DeclaredCtor (T : ExposedType) : Prop :=
  (∃ body, T.NewInstance = V8_CTOR body) ∨ T.NewInstance = V8_CTOR_NO_JS ∨
    T.NewInstance = V8_CTOR_NO_ALL

/-- The link between an instance and its script object, as `Wrap` leaves it: a
non-empty `handle_` refers to a live cell holding an object that was
instantiated from the template of `T` (or one inheriting from it) and whose
internal field 0 holds the address of the instance. -/
def Linked (T : ExposedType) (self : ObjectWrap) (host : Host) : Prop :=
  ∀ c, self.handle_ = some c →
    ∃ id t, host.read (.global c) = some (.object id) ∧
      host.objects[id]? = some (.ofTemplate t (some self.addr)) ∧
      inheritsFrom host.parents T._templ (host.parents.length + 1) t = true

/-- The host runtime with nothing allocated. -/
def Host.init : Host := { objects := [], cells := [], parents := [], scheduled := [] }

/-! ## Supporting lemmas -/

theorem read_scoped (host : Host) (v : Value) : host.read (.scoped v) = some v := rfl

theorem acceptsMarker_V8_CTOR_NO_JS (T : ExposedType) (hT : T.NewInstance = V8_CTOR_NO_JS) :
    AcceptsMarker T := by
  intro args host h
  simp [hT, V8_CTOR_NO_JS, h]

theorem acceptsMarker_V8_CTOR (T : ExposedType)
    (body : Handle → Arguments → Native (Option Handle)) (hT : T.NewInstance = V8_CTOR body) :
    AcceptsMarker T := by
  intro args host h
  simp [hT, V8_CTOR, h]

/-- With a constructor that accepts the marker, `NewInstance` on the marker
allocates one instance of the template and returns it. -/
theorem newInstance_marker (T : ExposedType) (hT : AcceptsMarker T) (p : Nat) (host : Host) :
    Function.NewInstance T._templ T.NewInstance [Value.external p] host =
      ({ host with objects := host.objects ++ [.ofTemplate T._templ none] },
        .ret (.scoped (.object host.objects.length))) := by
  unfold Function.NewInstance
  simp only
  rw [hT _ _ (by simp [Arguments.index, Value.IsExternal])]
  simp [Arguments.This, Host.read]

theorem wrapped_fresh (T : ExposedType) (hT : AcceptsMarker T) (self : ObjectWrap) (host : Host)
    (hs : self.handle_ = none) :
    V8_TYPE.Wrapped T self host =
      (linkedHost T self.addr host,
        .ret ({ self with handle_ := some host.cells.length },
          .scoped (.object host.objects.length))) := by
  unfold V8_TYPE.Wrapped
  simp only [hs, Persistent.toHandle, Handle.IsEmpty, if_true]
  rw [newInstance_marker T hT]
  simp [ObjectWrap.Wrap, hs, Host.read, Persistent.New, Persistent.MakeWeak, Host.modifyCell,
    HandleScope.Close, linkedHost]

theorem wrapped_linked (T : ExposedType) (self : ObjectWrap) (host : Host) (c : Nat)
    (hs : self.handle_ = some c) :
    V8_TYPE.Wrapped T self host =
      (host, .ret (self, HandleScope.Close (.global c) host)) := by
  simp [V8_TYPE.Wrapped, hs, Persistent.toHandle, Handle.IsEmpty]

theorem etype_wrapped_eq : V8_ETYPE.Wrapped = V8_TYPE.Wrapped := rfl

/-! ## C1 -/

/-- C1 (identity coherence). For a type whose constructor accepts the
native-origin marker, `Wrapped()` (declared by `V8_TYPE` or defined by
`V8_ETYPE`) returns on two successive calls the same script object: the first
call yields a state `host1`, an instance `self1` with a non-empty slot and an
object `obj`, which is the object stored in the slot; a call made from there
returns `obj` again and changes neither the host nor the instance, so every
later call does the same. If the slot was empty the first call allocated
exactly one script object, the one it returns and stores, linked to the
instance; if the slot was not empty the first call allocated nothing either. -/
theorem C1_identity_coherence (T : ExposedType) (hT : AcceptsMarker T) (self : ObjectWrap)
    (host : Host) :
    ∃ host1 self1 obj,
      V8_TYPE.Wrapped T self host = (host1, .ret (self1, obj)) ∧
      V8_TYPE.Wrapped T self1 host1 = (host1, .ret (self1, obj)) ∧
      V8_ETYPE.Wrapped T self host = (host1, .ret (self1, obj)) ∧
      V8_ETYPE.Wrapped T self1 host1 = (host1, .ret (self1, obj)) ∧
      self1.handle_ ≠ none ∧
      HandleScope.Close (Persistent.toHandle self1.handle_) host1 = obj ∧
      (self.handle_ = none →
        host1.objects = host.objects ++ [.ofTemplate T._templ (some self.addr)] ∧
        obj = .scoped (.object host.objects.length)) ∧
      (self.handle_ ≠ none → host1 = host ∧ self1 = self) := by
  rw [etype_wrapped_eq]
  cases hs : self.handle_ with
  | none =>
    refine ⟨linkedHost T self.addr host, { self with handle_ := some host.cells.length },
      .scoped (.object host.objects.length), wrapped_fresh T hT self host hs, ?_,
      wrapped_fresh T hT self host hs, ?_, by simp, ?_, ?_, by simp⟩
    · rw [wrapped_linked T _ _ host.cells.length rfl]
      simp [HandleScope.Close, Host.read, linkedHost]
    · rw [wrapped_linked T _ _ host.cells.length rfl]
      simp [HandleScope.Close, Host.read, linkedHost]
    · simp [HandleScope.Close, Host.read, linkedHost, Persistent.toHandle]
    · intro _
      simp [linkedHost]
  | some c =>
    refine ⟨host, self, HandleScope.Close (.global c) host, wrapped_linked T self host c hs,
      wrapped_linked T self host c hs, wrapped_linked T self host c hs,
      wrapped_linked T self host c hs, by simp [hs], by simp [hs, Persistent.toHandle],
      by simp, by simp⟩

/-- C1 at a concrete type declared with `V8_CTOR_NO_JS`, a fresh native
instance and the initial host. -/
theorem C1_identity_coherence_witness :
    AcceptsMarker { _templ := 0, NewInstance := V8_CTOR_NO_JS } ∧
    ∃ host1 self1 obj,
      V8_TYPE.Wrapped { _templ := 0, NewInstance := V8_CTOR_NO_JS }
        { addr := 7, handle_ := none } Host.init = (host1, .ret (self1, obj)) ∧
      V8_TYPE.Wrapped { _templ := 0, NewInstance := V8_CTOR_NO_JS } self1 host1 =
        (host1, .ret (self1, obj)) ∧
      obj = .scoped (.object 0) :=
  ⟨acceptsMarker_V8_CTOR_NO_JS _ rfl, by
    obtain ⟨host1, self1, obj, h1, h2, -, -, -, -, h3, -⟩ :=
      C1_identity_coherence { _templ := 0, NewInstance := V8_CTOR_NO_JS }
        (acceptsMarker_V8_CTOR_NO_JS _ rfl) { addr := 7, handle_ := none } Host.init
    exact ⟨host1, self1, obj, h1, h2, (h3 rfl).2⟩⟩

/-! ## C2 -/

theorem etype_hasInstance_eq : V8_ETYPE.HasInstance = V8_TYPE.HasInstance := rfl

theorem etype_unwrap_eq : V8_ETYPE.Unwrap = V8_TYPE.Unwrap := rfl

/-- The capsule `Unwrap` throws and the state it leaves on a failed check. -/
theorem unwrap_of_not_hasInstance (T : ExposedType) (obj : Handle) (host : Host)
    (h : V8_TYPE.HasInstance T obj host = (host, .ret false)) :
    V8_TYPE.Unwrap T obj host =
      ({ host with cells := host.cells ++
          [{ value := .error .TypeError "Invalid object unwrapped.".toList,
             disposals := 0, weak := false }] },
        .thrown (.persistentValue (some host.cells.length))) := by
  simp only [V8_TYPE.HasInstance] at h
  have hmsg : String.New "Invalid object unwrapped.".toList (-1) =
      "Invalid object unwrapped.".toList := by decide
  simp only [V8_TYPE.Unwrap, Bind.bind, Native.bind, h, Bool.false_eq_true, if_false, hmsg]
  rfl

/-- On a successful check `Unwrap` returns what internal field 0 holds. -/
theorem unwrap_of_hasInstance (T : ExposedType) (obj : Handle) (host : Host)
    (h : V8_TYPE.HasInstance T obj host = (host, .ret true)) :
    ∃ id t field0, host.read obj = some (.object id) ∧
      host.objects[id]? = some (.ofTemplate t field0) ∧
      V8_TYPE.Unwrap T obj host = (host, .ret field0) := by
  have h0 := h
  simp only [V8_TYPE.HasInstance, FunctionTemplate.HasInstance] at h
  split at h
  · simp at h
  · rename_i id hread
    split at h
    · rename_i t field0 hobj
      refine ⟨id, t, field0, hread, hobj, ?_⟩
      simp only [V8_TYPE.HasInstance] at h0
      simp [V8_TYPE.Unwrap, Bind.bind, Native.bind, h0, ObjectWrap.Unwrap, hread, hobj]
    · simp at h
  · simp at h

/-- `HasInstance` never throws and never changes the host. -/
theorem hasInstance_no_throw (T : ExposedType) (obj : Handle) (host : Host) :
    (V8_TYPE.HasInstance T obj host).1 = host ∧
      ∀ c, (V8_TYPE.HasInstance T obj host).2 ≠ .thrown c := by
  simp only [V8_TYPE.HasInstance, FunctionTemplate.HasInstance]
  split
  · simp
  · split <;> simp
  · simp

/-- The three ways `HasInstance` can end; it ends the process only on an
empty handle, and `Unwrap` then ends with it. -/
theorem hasInstance_cases (T : ExposedType) (obj : Handle) (host : Host) :
    V8_TYPE.HasInstance T obj host = (host, .ret true) ∨
    V8_TYPE.HasInstance T obj host = (host, .ret false) ∨
    (V8_TYPE.HasInstance T obj host = (host, .abort) ∧
      V8_TYPE.Unwrap T obj host = (host, .abort)) := by
  simp only [V8_TYPE.HasInstance, V8_TYPE.Unwrap, Bind.bind, Native.bind,
    FunctionTemplate.HasInstance]
  split
  · simp
  · split
    · rename_i t f hobj
      cases inheritsFrom host.parents T._templ (host.parents.length + 1) t <;> simp
    · simp
  · simp

/-- C2 (Unwrap fails exactly when the type check fails). For every exposed
type and every handle: `HasInstance` never throws and leaves the host as it
was; `Unwrap` throws if and only if `HasInstance` returns false; the capsule
thrown is then a persistent reference to a type error with the message
"Invalid object unwrapped."; when `HasInstance` returns true, `Unwrap` throws
nothing, changes nothing, and returns the native pointer kept in internal
field 0 of the object, the instance linked to it. The functions defined by
`V8_ETYPE` behave as the ones declared by `V8_TYPE`. -/
theorem C2_unwrap_fails_iff_not_hasInstance (T : ExposedType) (obj : Handle) (host : Host) :
    ((V8_TYPE.HasInstance T obj host).1 = host ∧
      ∀ c, (V8_TYPE.HasInstance T obj host).2 ≠ .thrown c) ∧
    ((∃ c, (V8_TYPE.Unwrap T obj host).2 = .thrown c) ↔
      (V8_TYPE.HasInstance T obj host).2 = .ret false) ∧
    ((V8_TYPE.HasInstance T obj host).2 = .ret false →
      ∃ cell, (V8_TYPE.Unwrap T obj host).2 = .thrown (.persistentValue (some cell)) ∧
        (V8_TYPE.Unwrap T obj host).1.read (.global cell) =
          some (.error .TypeError "Invalid object unwrapped.".toList)) ∧
    ((V8_TYPE.HasInstance T obj host).2 = .ret true →
      ∃ id t field0, host.read obj = some (.object id) ∧
        host.objects[id]? = some (.ofTemplate t field0) ∧
        V8_TYPE.Unwrap T obj host = (host, .ret field0)) ∧
    V8_ETYPE.HasInstance T obj host = V8_TYPE.HasInstance T obj host ∧
    V8_ETYPE.Unwrap T obj host = V8_TYPE.Unwrap T obj host := by
  refine ⟨hasInstance_no_throw T obj host, ?_, ?_, ?_, rfl, rfl⟩
  · rcases hasInstance_cases T obj host with h | h | ⟨h, hu⟩
    · obtain ⟨id, t, f, -, -, hu⟩ := unwrap_of_hasInstance T obj host h
      simp [h, hu]
    · simp [h, unwrap_of_not_hasInstance T obj host h]
    · simp [h, hu]
  · intro hf
    rcases hasInstance_cases T obj host with h | h | ⟨h, -⟩
    · simp [h] at hf
    · refine ⟨host.cells.length, ?_, ?_⟩
      · rw [unwrap_of_not_hasInstance T obj host h]
      · rw [unwrap_of_not_hasInstance T obj host h]
        simp [Host.read]
    · simp [h] at hf
  · intro ht
    rcases hasInstance_cases T obj host with h | h | ⟨h, -⟩
    · exact unwrap_of_hasInstance T obj host h
    · simp [h] at ht
    · simp [h] at ht

/-! ## C3 -/

theorem inheritsFrom_self (parents : List (Option Nat)) (t fuel : Nat) :
    inheritsFrom parents t (fuel + 1) t = true := by
  simp [inheritsFrom]

/-- Under `V8_CTOR_NO_ALL` the constructor signals its type error whatever
the arguments, so `NewInstance` gives an empty handle. -/
theorem newInstance_no_all (T : ExposedType) (hT : T.NewInstance = V8_CTOR_NO_ALL)
    (argv : List Value) (host : Host) :
    Function.NewInstance T._templ T.NewInstance argv host =
      ({ host with
          objects := host.objects ++ [.ofTemplate T._templ none]
          scheduled := host.scheduled ++
            [.error .TypeError "No instances of this exact type may be constructed.".toList] },
        .ret .empty) := by
  have hmsg : String.New "No instances of this exact type may be constructed.".toList (-1) =
      "No instances of this exact type may be constructed.".toList := by decide
  simp only [Function.NewInstance, hT, V8_CTOR_NO_ALL, V8_STHROW, ThrowException, TypeErr,
    Exception.TypeError, Host.read, hmsg]
  simp

/-- Under `V8_CTOR_NO_ALL`, `Wrapped()` on an instance with an empty slot
hands the empty handle to `Wrap`, which ends the process. -/
theorem wrapped_no_all (T : ExposedType) (hT : T.NewInstance = V8_CTOR_NO_ALL)
    (self : ObjectWrap) (hs : self.handle_ = none) (host : Host) :
    V8_TYPE.Wrapped T self host =
      ({ host with
          objects := host.objects ++ [.ofTemplate T._templ none]
          scheduled := host.scheduled ++
            [.error .TypeError "No instances of this exact type may be constructed.".toList] },
        .abort) := by
  unfold V8_TYPE.Wrapped
  simp only [hs, Persistent.toHandle, Handle.IsEmpty, if_true]
  rw [newInstance_no_all T hT]
  simp [ObjectWrap.Wrap, hs, Host.read]

theorem acceptsMarker_of_declared (T : ExposedType) (hT : DeclaredCtor T)
    (hno : T.NewInstance ≠ V8_CTOR_NO_ALL) : AcceptsMarker T := by
  rcases hT with ⟨body, h⟩ | h | h
  · exact acceptsMarker_V8_CTOR T body h
  · exact acceptsMarker_V8_CTOR_NO_JS T h
  · exact absurd h hno

/-- An instance that has not been wrapped yet is `Linked`. -/
theorem linked_of_empty (T : ExposedType) (self : ObjectWrap) (host : Host)
    (hs : self.handle_ = none) : Linked T self host := by
  intro c hc
  simp [hs] at hc

/-- `Unwrap` on a handle to an object of the family of `T` whose internal
field 0 holds `addr`. -/
theorem unwrap_linked_object (T : ExposedType) (host : Host) (id t addr : Nat)
    (hobj : host.objects[id]? = some (.ofTemplate t (some addr)))
    (hinh : inheritsFrom host.parents T._templ (host.parents.length + 1) t = true) :
    V8_TYPE.Unwrap T (.scoped (.object id)) host = (host, .ret (some addr)) := by
  simp [V8_TYPE.Unwrap, Bind.bind, Native.bind, FunctionTemplate.HasInstance, Host.read, hobj,
    hinh, ObjectWrap.Unwrap]

/-- `V8_WRAP(INSTANCE)` on the receiver of a construct call, an object of the
family of `T`, leaves the instance `Linked`. -/
theorem wrap_establishes_linked (T : ExposedType) (self : ObjectWrap) (host : Host)
    (id t : Nat) (f : Option Nat) (hs : self.handle_ = none)
    (hobj : host.objects[id]? = some (.ofTemplate t f))
    (hinh : inheritsFrom host.parents T._templ (host.parents.length + 1) t = true) :
    ∃ host1 self1, V8_WRAP self (.scoped (.object id)) host = (host1, .ret self1) ∧
      self1.addr = self.addr ∧ self1.handle_ ≠ none ∧ Linked T self1 host1 := by
  have hid : id < host.objects.length := by
    rcases Nat.lt_or_ge id host.objects.length with h | h
    · exact h
    · rw [List.getElem?_eq_none h] at hobj
      cases hobj
  have hw : V8_WRAP self (.scoped (.object id)) host =
      ({ host with
          objects := host.objects.set id (.ofTemplate t (some self.addr))
          cells := host.cells ++ [{ value := .object id, disposals := 0, weak := true }] },
        .ret { self with handle_ := some host.cells.length }) := by
    simp [V8_WRAP, ObjectWrap.Wrap, hs, Host.read, hobj, Persistent.New, Persistent.MakeWeak,
      Host.modifyCell]
  refine ⟨_, _, hw, rfl, by simp, ?_⟩
  intro c hc
  simp only [Option.some.injEq] at hc
  subst hc
  exact ⟨id, t, by simp [Host.read], by simp [hid], hinh⟩

/-- C3 (wrap/unwrap round trip). For a type whose constructor is one the
header provides and an instance whose slot is empty or holds the link `Wrap`
made: whenever `Wrapped()` returns, `Unwrap` (of `V8_TYPE` and of `V8_ETYPE`)
applied to the object it returned throws nothing, changes nothing and returns
the address of that very instance; the instance is linked afterwards. -/
theorem C3_wrap_unwrap_round_trip (T : ExposedType) (hT : DeclaredCtor T) (self : ObjectWrap)
    (host : Host) (hl : Linked T self host) (host1 : Host) (self1 : ObjectWrap) (obj : Handle)
    (hok : V8_TYPE.Wrapped T self host = (host1, .ret (self1, obj))) :
    V8_TYPE.Unwrap T obj host1 = (host1, .ret (some self.addr)) ∧
    V8_ETYPE.Unwrap T obj host1 = (host1, .ret (some self.addr)) ∧
    self1.addr = self.addr ∧ Linked T self1 host1 := by
  rw [etype_unwrap_eq]
  cases hs : self.handle_ with
  | none =>
    by_cases hno : T.NewInstance = V8_CTOR_NO_ALL
    · rw [wrapped_no_all T hno self hs host] at hok
      simp at hok
    · have hA := acceptsMarker_of_declared T hT hno
      rw [wrapped_fresh T hA self host hs] at hok
      simp only [Prod.mk.injEq, Outcome.ret.injEq] at hok
      obtain ⟨h1, h2, h3⟩ := hok
      subst h1 h2 h3
      have hobj : (linkedHost T self.addr host).objects[host.objects.length]? =
          some (.ofTemplate T._templ (some self.addr)) := by
        simp [linkedHost]
      have hu := unwrap_linked_object T (linkedHost T self.addr host) host.objects.length
        T._templ self.addr hobj (inheritsFrom_self _ _ _)
      refine ⟨hu, hu, rfl, ?_⟩
      intro c hc
      simp only [Option.some.injEq] at hc
      subst hc
      exact ⟨host.objects.length, T._templ, by simp [Host.read, linkedHost], hobj,
        inheritsFrom_self _ _ _⟩
  | some c =>
    rw [wrapped_linked T self host c hs] at hok
    simp only [Prod.mk.injEq, Outcome.ret.injEq] at hok
    obtain ⟨h1, h2, h3⟩ := hok
    subst h1 h2 h3
    obtain ⟨id, t, hread, hobj, hinh⟩ := hl c hs
    have hu : V8_TYPE.Unwrap T (HandleScope.Close (.global c) host) host =
        (host, .ret (some self.addr)) := by
      simp only [HandleScope.Close, hread]
      exact unwrap_linked_object T host id t self.addr hobj hinh
    exact ⟨hu, hu, rfl, hl⟩

/-- C3 at a type declared with `V8_CTOR_NO_JS`, a fresh native instance at
address 7 and the initial host. -/
theorem C3_wrap_unwrap_round_trip_witness :
    V8_TYPE.Unwrap { _templ := 0, NewInstance := V8_CTOR_NO_JS } (.scoped (.object 0))
        (linkedHost { _templ := 0, NewInstance := V8_CTOR_NO_JS } 7 Host.init) =
      (linkedHost { _templ := 0, NewInstance := V8_CTOR_NO_JS } 7 Host.init, .ret (some 7)) :=
  (C3_wrap_unwrap_round_trip { _templ := 0, NewInstance := V8_CTOR_NO_JS }
    (Or.inr (Or.inl rfl)) { addr := 7, handle_ := none } Host.init
    (linked_of_empty _ _ _ rfl) _ _ _
    (wrapped_fresh _ (acceptsMarker_V8_CTOR_NO_JS _ rfl) { addr := 7, handle_ := none }
      Host.init rfl)).1

/-! ## C4 -/

/-- `String::New(data, length)` with the length of the data keeps all of it,
embedded NUL characters included. -/
theorem string_new_length (s : List Char) : String.New s s.length = s := by
  unfold String.New
  cases s with
  | nil => simp
  | cons a l =>
    have h0 : ((a :: l).length : Int) ≠ 0 := by simp; omega
    have h1 : ((a :: l).length : Int) ≠ -1 := by simp; omega
    simp only [h0, h1, if_false, Int.toNat_ofNat, List.take_length]

/-- `String::New(data)` stops at the first NUL. -/
theorem string_new_cstr (s : List Char) :
    String.New s (-1) = s.takeWhile (fun ch => ch != NUL) := by
  simp [String.New]

/-- Every handler of `__v8_wrap_end(V8_STHROW)` makes one call of
`ThrowException` and returns its result. -/
theorem wrap_end_signals_once (c : Capsule) (host : Host) :
    ∃ v, (__v8_wrap_end V8_STHROW c host).2 = .ret (.scoped .undefined) ∧
      (__v8_wrap_end V8_STHROW c host).1.scheduled = host.scheduled ++ [v] ∧
      (__v8_wrap_end V8_STHROW_NR c host).2 = .ret () ∧
      (__v8_wrap_end V8_STHROW_NR c host).1 = (__v8_wrap_end V8_STHROW c host).1 := by
  have key : ∀ (h : Handle) (host0 : Host), ∃ v,
      (V8_STHROW h host0).2 = .ret (.scoped .undefined) ∧
      (V8_STHROW h host0).1.scheduled = host0.scheduled ++ [v] ∧
      (V8_STHROW_NR h host0).2 = .ret () ∧
      (V8_STHROW_NR h host0).1 = (V8_STHROW h host0).1 := by
    intro h host0
    simp only [V8_STHROW, V8_STHROW_NR, ThrowException]
    cases host0.read h <;> simp
  cases c with
  | persistentValue err =>
    obtain ⟨v, h1, h2, h3, h4⟩ := key (Persistent.toHandle err) (Persistent.Dispose err host)
    refine ⟨v, h1, ?_, h3, h4⟩
    simp only [__v8_wrap_end]
    rw [h2]
    cases err with
    | none => rfl
    | some cell =>
      simp only [Persistent.Dispose, Host.modifyCell]
      split <;> rfl
  | stdException what => exact key (Exception.Error (String.New what (-1))) host
  | handleValue err => exact key err host
  | valuePtr err => exact key err host
  | stdString err => exact key (Exception.Error (String.New err err.length)) host
  | other tag => exact key (Exception.Error (String.New "Unknown error!".toList (-1))) host

/-- What the three handlers that build an error hand to the host. -/
theorem wrap_end_generic_error (host : Host) :
    (∀ what, (__v8_wrap_end V8_STHROW (.stdException what) host).1 =
      { host with scheduled := host.scheduled ++
          [.error .Error (what.takeWhile (fun ch => ch != NUL))] }) ∧
    (∀ s, (__v8_wrap_end V8_STHROW (.stdString s) host).1 =
      { host with scheduled := host.scheduled ++ [.error .Error s] }) ∧
    (∀ tag, (__v8_wrap_end V8_STHROW (.other tag) host).1 =
      { host with scheduled := host.scheduled ++ [.error .Error "Unknown error!".toList] }) := by
  refine ⟨?_, ?_, ?_⟩
  · intro what
    simp only [__v8_wrap_end, V8_STHROW, ThrowException, Exception.Error, Host.read,
      string_new_cstr]
  · intro s
    simp only [__v8_wrap_end, V8_STHROW, ThrowException, Exception.Error, Host.read,
      string_new_length]
  · intro tag
    have hmsg : String.New "Unknown error!".toList (-1) = "Unknown error!".toList := by decide
    simp only [__v8_wrap_end, V8_STHROW, ThrowException, Exception.Error, Host.read, hmsg]

/-- C4 (error normalization). Whatever capsule the body of a callback throws,
the handlers of `V8_WRAP_END` and of `V8_WRAP_END_NR` return to the host
normally (no capsule leaves the callback) after exactly one call of
`ThrowException`: the list of scheduled exceptions grows by one entry `v`. For
a `std::exception` `v` is a generic `Error` whose message is the text of
`what()` (the characters before its NUL), for a `std::string` a generic
`Error` whose message is the whole string, for a capsule no handler names a
generic `Error` with the message "Unknown error!"; in these three cases
nothing else in the host changes. A body that returns is passed through: the
translator signals nothing. -/
theorem C4_error_normalization (body : Native Handle) (bodyNR : Native Unit) (host : Host) :
    (∀ host1 r, body host = (host1, .ret r) → V8_WRAP_END body host = (host1, .ret r)) ∧
    (∀ host1 r, bodyNR host = (host1, .ret r) → V8_WRAP_END_NR bodyNR host = (host1, .ret r)) ∧
    (∀ host1 c, body host = (host1, .thrown c) ∨ bodyNR host = (host1, .thrown c) →
      ∃ host2 v,
        (body host = (host1, .thrown c) →
          V8_WRAP_END body host = (host2, .ret (.scoped .undefined))) ∧
        (bodyNR host = (host1, .thrown c) → V8_WRAP_END_NR bodyNR host = (host2, .ret ())) ∧
        host2.scheduled = host1.scheduled ++ [v] ∧
        (∀ what, c = .stdException what →
          v = .error .Error (what.takeWhile (fun ch => ch != NUL)) ∧
          host2 = { host1 with scheduled := host1.scheduled ++ [v] }) ∧
        (∀ s, c = .stdString s →
          v = .error .Error s ∧ host2 = { host1 with scheduled := host1.scheduled ++ [v] }) ∧
        (∀ tag, c = .other tag →
          v = .error .Error "Unknown error!".toList ∧
          host2 = { host1 with scheduled := host1.scheduled ++ [v] })) := by
  refine ⟨?_, ?_, ?_⟩
  · intro host1 r h
    simp [V8_WRAP_END, h]
  · intro host1 r h
    simp [V8_WRAP_END_NR, h]
  · intro host1 c _
    obtain ⟨v, h1, h2, h3, h4⟩ := wrap_end_signals_once c host1
    obtain ⟨k1, k2, k3⟩ := wrap_end_generic_error host1
    refine ⟨(__v8_wrap_end V8_STHROW c host1).1, v, ?_, ?_, h2, ?_, ?_, ?_⟩
    · intro h
      simp only [V8_WRAP_END, h]
      exact Prod.ext rfl h1
    · intro h
      simp only [V8_WRAP_END_NR, h]
      exact Prod.ext h4 h3
    · intro what hc
      subst hc
      rw [k1 what] at h2 ⊢
      simp only [List.append_cancel_left_eq, List.cons.injEq, and_true] at h2
      subst h2
      exact ⟨rfl, rfl⟩
    · intro s hc
      subst hc
      rw [k2 s] at h2 ⊢
      simp only [List.append_cancel_left_eq, List.cons.injEq, and_true] at h2
      subst h2
      exact ⟨rfl, rfl⟩
    · intro tag hc
      subst hc
      rw [k3 tag] at h2 ⊢
      simp only [List.append_cancel_left_eq, List.cons.injEq, and_true] at h2
      subst h2
      exact ⟨rfl, rfl⟩

/-! ## C5 -/

/-- The handler for `v8::Persistent<v8::Value>` disposes the capsule before it
passes it to `throw_type`: for a capsule made by `V8_THROW(v)`, the storage
cell registered for `v` has been disposed (once) when `ThrowException` reads
it, so what is scheduled is the content of a released cell, not `v`. -/
theorem throw_then_wrap_end (v : Value) (host : Host) :
    V8_WRAP_END (V8_THROW (.scoped v)) host =
      ({ host with
          cells := host.cells ++ [{ value := v, disposals := 1, weak := false }]
          scheduled := host.scheduled ++ [.released host.cells.length] },
        .ret (.scoped .undefined)) := by
  simp [V8_WRAP_END, V8_THROW, Persistent.New, Host.read, __v8_wrap_end, Persistent.Dispose,
    Host.modifyCell, Persistent.toHandle, V8_STHROW, ThrowException]

/-- C5 (script-error pass-through), evaluated. A callback whose body is
`V8_THROW(v)` for the script error `v = Error("boom")`, run on the initial
host: the persistent cell 0 registered for `v` ends disposed exactly once, but
it is disposed before the handle is passed to `ThrowException`, which
therefore schedules the content of the released cell 0 instead of `v`. -/
theorem C5_passthrough_reads_released_cell :
    V8_CB (fun _ => V8_THROW (Exception.Error "boom".toList))
        { values := [], receiver := .undefined, construct := false } Host.init =
      ({ objects := [],
         cells := [{ value := .error .Error "boom".toList, disposals := 1, weak := false }],
         parents := [],
         scheduled := [.released 0] },
        .ret (.scoped .undefined)) ∧
    (Persistent.Dispose (some 0)
        (Persistent.New (Exception.Error "boom".toList) Host.init).1).read
      (Persistent.toHandle (some 0)) = some (.released 0) := by
  constructor
  · rfl
  · rfl

/-! ## C6 -/

/-- C6 (NO_SCRIPT_CONSTRUCTION enforcement). A constructor declared with
`V8_CTOR_NO_ALL`, for every argument list, receiver and calling convention,
signals exactly one exception, the type error with the message "No instances
of this exact type may be constructed.", changes nothing else, and returns
`undefined`, not an object; a construction `new T(argv)` made through the
function of such a type therefore yields the empty handle. -/
theorem C6_no_script_construction (args : Arguments) (host : Host) (t : Nat)
    (argv : List Value) :
    V8_CTOR_NO_ALL args host =
      ({ host with scheduled := host.scheduled ++
          [.error .TypeError "No instances of this exact type may be constructed.".toList] },
        .ret (.scoped .undefined)) ∧
    Function.NewInstance t V8_CTOR_NO_ALL argv host =
      ({ host with
          objects := host.objects ++ [.ofTemplate t none]
          scheduled := host.scheduled ++
            [.error .TypeError "No instances of this exact type may be constructed.".toList] },
        .ret .empty) := by
  have hmsg : String.New "No instances of this exact type may be constructed.".toList (-1) =
      "No instances of this exact type may be constructed.".toList := by decide
  constructor
  · simp only [V8_CTOR_NO_ALL, V8_STHROW, ThrowException, TypeErr, Exception.TypeError,
      Host.read, hmsg]
  · exact newInstance_no_all { _templ := t, NewInstance := V8_CTOR_NO_ALL } rfl argv host

/-! ## C7 -/

/-- C7 as stated fails: for the type with template 0 declared with
`V8_CTOR_NO_ALL` and a natively created instance (empty slot) on the initial
host, `Wrapped()` returns no script value: the constructor signals its type
error and `Wrap`, handed the empty handle, ends the process. -/
theorem C7_counterexample :
    V8_TYPE.Wrapped { _templ := 0, NewInstance := V8_CTOR_NO_ALL }
        { addr := 7, handle_ := none } Host.init =
      ({ objects := [.ofTemplate 0 none],
         cells := [],
         parents := [],
         scheduled :=
          [.error .TypeError "No instances of this exact type may be constructed.".toList] },
        .abort) ∧
    ¬ ∃ host1 self1 obj,
      V8_TYPE.Wrapped { _templ := 0, NewInstance := V8_CTOR_NO_ALL }
        { addr := 7, handle_ := none } Host.init = (host1, .ret (self1, obj)) := by
  have h := wrapped_no_all { _templ := 0, NewInstance := V8_CTOR_NO_ALL } rfl
    { addr := 7, handle_ := none } rfl Host.init
  refine ⟨h, ?_⟩
  rintro ⟨host1, self1, obj, h1⟩
  rw [h] at h1
  simp at h1

/-- C7 amended. Under `V8_CTOR_NO_ALL`, `Wrapped()` (of `V8_TYPE` and of
`V8_ETYPE`) on a natively created instance, whatever the host, returns no
script value: one object is allocated, the type error "No instances of this
exact type may be constructed." is signalled and the process ends in `Wrap`.
Under `V8_CTOR_NO_JS` a natively created instance gets a non-empty object with
no error signalled, and a second call returns the identical object. -/
theorem C7_native_exposure_amended (t addr : Nat) (host : Host) :
    V8_TYPE.Wrapped { _templ := t, NewInstance := V8_CTOR_NO_ALL }
        { addr := addr, handle_ := none } host =
      ({ host with
          objects := host.objects ++ [.ofTemplate t none]
          scheduled := host.scheduled ++
            [.error .TypeError "No instances of this exact type may be constructed.".toList] },
        .abort) ∧
    V8_ETYPE.Wrapped { _templ := t, NewInstance := V8_CTOR_NO_ALL }
        { addr := addr, handle_ := none } host =
      V8_TYPE.Wrapped { _templ := t, NewInstance := V8_CTOR_NO_ALL }
        { addr := addr, handle_ := none } host ∧
    ∃ host1 self1,
      V8_TYPE.Wrapped { _templ := t, NewInstance := V8_CTOR_NO_JS }
          { addr := addr, handle_ := none } host =
        (host1, .ret (self1, .scoped (.object host.objects.length))) ∧
      host1.scheduled = host.scheduled ∧
      host1.objects[host.objects.length]? = some (.ofTemplate t (some addr)) ∧
      V8_TYPE.Wrapped { _templ := t, NewInstance := V8_CTOR_NO_JS } self1 host1 =
        (host1, .ret (self1, .scoped (.object host.objects.length))) := by
  refine ⟨wrapped_no_all _ rfl _ rfl host, rfl, ?_⟩
  have hA := acceptsMarker_V8_CTOR_NO_JS { _templ := t, NewInstance := V8_CTOR_NO_JS } rfl
  refine ⟨_, _, wrapped_fresh _ hA { addr := addr, handle_ := none } host rfl, ?_, ?_, ?_⟩
  · simp [linkedHost]
  · simp [linkedHost]
  · rw [wrapped_linked _ _ _ host.cells.length rfl]
    simp [HandleScope.Close, Host.read, linkedHost]

/-! ## C8 -/

/-- C8 (NO_DIRECT_CONSTRUCTION enforcement). A constructor declared with
`V8_CTOR_NO_JS`, for every argument list, receiver and calling convention:
if the first argument is an `External` it returns the receiver and leaves the
host as it was (no error); otherwise (first argument of another kind, or no
argument) it signals the type error "You can't construct instances of this
type directly.", changes nothing else and returns `undefined`. Hence no error
is signalled exactly when the first argument is an `External`. -/
theorem C8_no_direct_construction (args : Arguments) (host : Host) :
    V8_CTOR_NO_JS args host =
      (if (args.index 0).IsExternal = true then (host, .ret (.scoped args.receiver))
       else
        ({ host with scheduled := host.scheduled ++
            [.error .TypeError
              "You can\x27t construct instances of this type directly.".toList] },
          .ret (.scoped .undefined))) ∧
    ((V8_CTOR_NO_JS args host).1.scheduled = host.scheduled ↔
      (args.index 0).IsExternal = true) ∧
    ((V8_CTOR_NO_JS args host).2 = .ret args.This ∧ (V8_CTOR_NO_JS args host).1 = host ↔
      (args.index 0).IsExternal = true) := by
  have hmsg : String.New "You can\x27t construct instances of this type directly.".toList (-1) =
      "You can\x27t construct instances of this type directly.".toList := by decide
  have h : V8_CTOR_NO_JS args host =
      (if (args.index 0).IsExternal = true then (host, .ret (.scoped args.receiver))
       else
        ({ host with scheduled := host.scheduled ++
            [.error .TypeError
              "You can\x27t construct instances of this type directly.".toList] },
          .ret (.scoped .undefined))) := by
    simp only [V8_CTOR_NO_JS, V8_STHROW, ThrowException, TypeErr, Exception.TypeError,
      Host.read, hmsg, Arguments.This]
  refine ⟨h, ?_, ?_⟩
  · rw [h]
    by_cases hx : (args.index 0).IsExternal = true
    · simp [hx]
    · simp [hx]
  · rw [h]
    by_cases hx : (args.index 0).IsExternal = true
    · simp [hx, Arguments.This]
    · rw [if_neg hx]
      constructor
      · rintro ⟨-, hEq⟩
        have := congrArg (fun x => x.scheduled.length) hEq
        simp at this
      · intro h1
        exact absurd h1 hx

/-! ## C9 -/

/-- C9 as stated fails: a `V8_CTOR` constructor invoked without `new` but
with an `External` as first argument signals nothing and returns the
receiver. -/
theorem C9_counterexample :
    V8_CTOR (fun _ _ => pure none)
        { values := [.external 7], receiver := .object 0, construct := false } Host.init =
      (Host.init, .ret (.scoped (.object 0))) := by
  rfl

/-- C9 amended. A `V8_CTOR` / `V8_ECTOR` constructor invoked without the `new`
calling convention never runs its body (the result does not depend on it): if
the first argument is not an `External` it signals the reference error "You
must call this as a constructor", changes nothing else and returns
`undefined`; if the first argument is an `External` it signals nothing and
returns the receiver. -/
theorem C9_calling_convention_amended (body : Handle → Arguments → Native (Option Handle))
    (args : Arguments) (host : Host) (hcall : args.IsConstructCall = false) :
    V8_CTOR body args host =
      (if (args.index 0).IsExternal = true then (host, .ret args.This)
       else
        ({ host with scheduled := host.scheduled ++
            [.error .ReferenceError "You must call this as a constructor".toList] },
          .ret (.scoped .undefined))) := by
  have hmsg : String.New "You must call this as a constructor".toList (-1) =
      "You must call this as a constructor".toList := by decide
  simp only [V8_CTOR, hcall, V8_STHROW, ThrowException, ReferenceErr, Exception.ReferenceError,
    Host.read, hmsg]
  simp

/-- C9 amended, at a call without `new` and with one number as argument. -/
theorem C9_calling_convention_amended_witness :
    V8_CTOR (fun _ _ => pure none)
        { values := [.number 1], receiver := .object 0, construct := false } Host.init =
      ({ objects := [], cells := [], parents := [],
         scheduled := [.error .ReferenceError "You must call this as a constructor".toList] },
        .ret (.scoped .undefined)) :=
  C9_calling_convention_amended (fun _ _ => pure none)
    { values := [.number 1], receiver := .object 0, construct := false } Host.init rfl

/-! ## C10 -/

/-- `CheckArguments` throws exactly when there are fewer than `min`
arguments; the capsule is a persistent reference, registered in a fresh cell,
to the range error "Not enough arguments."; otherwise it returns and changes
nothing. -/
theorem checkArguments_spec (min : Int) (args : Arguments) (host : Host) :
    CheckArguments min args host =
      (if args.Length < min then
        ({ host with cells := host.cells ++
            [{ value := .error .RangeError "Not enough arguments.".toList,
               disposals := 0, weak := false }] },
          .thrown (.persistentValue (some host.cells.length)))
       else (host, .ret ())) := by
  have hmsg : String.New "Not enough arguments.".toList (-1) = "Not enough arguments.".toList := by
    decide
  unfold CheckArguments
  by_cases h : args.Length < min
  · simp only [h, if_true, hmsg]
    rfl
  · simp only [h, if_false]
    rfl

/-- Inside a translated callback a failed `CheckArguments` ends the body: the
result does not depend on the statements after it. What reaches the host is
read from the cell after its disposal. -/
theorem checkArguments_in_callback (min : Int) (rest : Arguments → Native (Option Handle))
    (args : Arguments) (host : Host) (h : args.Length < min) :
    V8_CB (fun a => do CheckArguments min a; rest a) args host =
      ({ host with
          cells := host.cells ++
            [{ value := .error .RangeError "Not enough arguments.".toList,
               disposals := 1, weak := false }]
          scheduled := host.scheduled ++ [.released host.cells.length] },
        .ret (.scoped .undefined)) := by
  simp only [V8_CB, V8_WRAP_END, Bind.bind, Native.bind, checkArguments_spec, h, if_true]
  simp [__v8_wrap_end, Persistent.Dispose, Host.modifyCell, Persistent.toHandle, V8_STHROW,
    ThrowException, Host.read]

/-- C10 (arity precondition), evaluated. A callback that checks for a minimum
of 2 arguments and then allocates an object, invoked with 1 argument on the
initial host: the check throws the range error "Not enough arguments." in the
persistent cell 0 and nothing after the check runs (no object is allocated),
but the translator disposes cell 0 before passing it to `ThrowException`, so
what is scheduled is the content of the released cell 0, not the range
error. -/
theorem C10_arity_error_reads_released_cell :
    CheckArguments 2 { values := [.number 1], receiver := .undefined, construct := false }
        Host.init =
      ({ objects := [],
         cells := [{ value := .error .RangeError "Not enough arguments.".toList,
                     disposals := 0, weak := false }],
         parents := [], scheduled := [] },
        .thrown (.persistentValue (some 0))) ∧
    V8_CB (fun a => do
          CheckArguments 2 a
          fun host => ({ host with objects := host.objects ++ [.plain] }, .ret none))
        { values := [.number 1], receiver := .undefined, construct := false } Host.init =
      ({ objects := [],
         cells := [{ value := .error .RangeError "Not enough arguments.".toList,
                     disposals := 1, weak := false }],
         parents := [],
         scheduled := [.released 0] },
        .ret (.scoped .undefined)) := by
  constructor
  · rfl
  · rfl

/-! ## C11 -/

/-- `Dispose` on a handle to an existing cell raises the disposal count of
that cell by one and touches nothing else. -/
theorem dispose_cell (c : Nat) (cell : Cell) (host : Host) (h : host.cells[c]? = some cell) :
    Persistent.Dispose (some c) host =
      { host with cells := host.cells.set c { cell with disposals := cell.disposals + 1 } } := by
  simp [Persistent.Dispose, Host.modifyCell, h]

theorem clearPersistent_none (host : Host) : ClearPersistent none host = (host, none) := rfl

theorem clearPersistent_some (c : Nat) (host : Host) :
    ClearPersistent (some c) host = (Persistent.Dispose (some c) host, none) := rfl

/-- `Dispose` keeps the number of cells. -/
theorem dispose_cells_length (p : Persistent) (host : Host) :
    (Persistent.Dispose p host).cells.length = host.cells.length := by
  cases p with
  | none => rfl
  | some c =>
    simp only [Persistent.Dispose, Host.modifyCell]
    split <;> simp

theorem clearPersistent_cells_length (p : Persistent) (host : Host) :
    (ClearPersistent p host).1.cells.length = host.cells.length := by
  cases p with
  | none => rfl
  | some c => exact dispose_cells_length (some c) host

/-- A non-empty handle always reads something. -/
theorem read_of_nonempty (value : Handle) (host : Host) (h : value.IsEmpty = false) :
    ∃ v, host.read value = some v := by
  rcases value with _ | v | c
  · simp [Handle.IsEmpty] at h
  · exact ⟨v, rfl⟩
  · simp only [Host.read]
    split
    · split <;> simp
    · simp

theorem new_of_read (value : Handle) (host : Host) (v : Value) (h : host.read value = some v) :
    Persistent.New value host =
      ({ host with cells := host.cells ++ [{ value := v, disposals := 0, weak := false }] },
        some host.cells.length) := by
  simp [Persistent.New, h]

/-- `SetPersistent` with a non-empty value: the old reference is cleared, then
what the value refers to in the cleared host is registered in a fresh cell. -/
theorem setPersistent_nonempty (handle : Persistent) (value : Handle) (host : Host) (v : Value)
    (hv : (ClearPersistent handle host).1.read value = some v) :
    SetPersistent handle value host =
      ({ (ClearPersistent handle host).1 with
          cells := (ClearPersistent handle host).1.cells ++
            [{ value := v, disposals := 0, weak := false }] },
        some host.cells.length) := by
  have hne : value.IsEmpty = false := by
    rcases value with _ | _ | _
    · simp [Host.read] at hv
    · rfl
    · rfl
  simp only [SetPersistent, hne, Bool.false_eq_true, if_false]
  rw [new_of_read value _ v hv, clearPersistent_cells_length]

/-- C11 (disposal exactly once, clear is idempotent). `ClearPersistent` and
`Persisted::Clear` (which is `ClearPersistent` on the guard's handle) leave the
guard empty; on an empty guard they change nothing in the host; on a guard
holding cell `c` they raise the disposal count of `c` by exactly one and
touch nothing else; clearing a second time changes nothing, so clear after
clear is clear. Hence after `SetPersistent` with a non-empty reference, which
registers it in a fresh cell with no disposal, two clears leave that cell
disposed exactly once. -/
theorem C11_clear_disposes_once (handle : Persistent) (host : Host) (self : Persisted)
    (value : Handle) :
    (ClearPersistent handle host).2 = none ∧
    self.Clear host =
      ((ClearPersistent self.handle host).1, { self with handle := none }) ∧
    (handle = none → (ClearPersistent handle host).1 = host) ∧
    (∀ c cell, handle = some c → host.cells[c]? = some cell →
      (ClearPersistent handle host).1 =
        { host with
            cells := host.cells.set c { cell with disposals := cell.disposals + 1 } }) ∧
    ClearPersistent (ClearPersistent handle host).2 (ClearPersistent handle host).1 =
      ClearPersistent handle host ∧
    (self.Clear host).2.Clear (self.Clear host).1 = self.Clear host ∧
    (value.IsEmpty = false →
      ∃ v, (SetPersistent handle value host).2 = some host.cells.length ∧
        (SetPersistent handle value host).1.cells[host.cells.length]? =
          some { value := v, disposals := 0, weak := false } ∧
        (ClearPersistent (SetPersistent handle value host).2
            (SetPersistent handle value host).1).1.cells[host.cells.length]? =
          some { value := v, disposals := 1, weak := false } ∧
        ClearPersistent
            (ClearPersistent (SetPersistent handle value host).2
              (SetPersistent handle value host).1).2
            (ClearPersistent (SetPersistent handle value host).2
              (SetPersistent handle value host).1).1 =
          ClearPersistent (SetPersistent handle value host).2
            (SetPersistent handle value host).1) := by
  have hempty : ∀ (p : Persistent) (h : Host), (ClearPersistent p h).2 = none := by
    intro p h
    cases p <;> rfl
  have hidem : ∀ (p : Persistent) (h : Host),
      ClearPersistent (ClearPersistent p h).2 (ClearPersistent p h).1 = ClearPersistent p h := by
    intro p h
    cases p <;> rfl
  refine ⟨hempty handle host, ?_, ?_, ?_, hidem handle host, ?_, ?_⟩
  · simp only [Persisted.Clear, hempty]
  · intro h
    subst h
    rfl
  · intro c cell h hc
    subst h
    rw [clearPersistent_some, dispose_cell c cell host hc]
  · simp only [Persisted.Clear, hempty]
    rfl
  · intro hne
    obtain ⟨v, hv⟩ := read_of_nonempty value (ClearPersistent handle host).1 hne
    have hlen := clearPersistent_cells_length handle host
    have hset := setPersistent_nonempty handle value host v hv
    refine ⟨v, ?_, ?_, ?_, hidem _ _⟩
    · rw [hset]
    · rw [hset]
      simp [← hlen]
    · rw [hset, clearPersistent_some]
      have hc : ({ (ClearPersistent handle host).1 with
          cells := (ClearPersistent handle host).1.cells ++
            [{ value := v, disposals := 0, weak := false }] } : Host).cells[host.cells.length]? =
          some { value := v, disposals := 0, weak := false } := by
        simp [← hlen]
      rw [dispose_cell _ _ _ hc]
      simp [← hlen]

/-! ## C12 -/

/-- Clearing a guard does not change what a handle to another cell, or a
scoped handle, refers to. -/
theorem read_after_clear (handle : Persistent) (value : Handle) (host : Host)
    (hna : ∀ c, handle = some c → value ≠ .global c) :
    (ClearPersistent handle host).1.read value = host.read value := by
  cases handle with
  | none => rfl
  | some c =>
    rcases value with _ | v | d
    · rfl
    · rfl
    · have hdc : c ≠ d := by
        intro h
        exact hna c rfl (by rw [h])
      simp only [clearPersistent_some, Persistent.Dispose, Host.modifyCell]
      split
      · simp [Host.read, List.getElem?_set, hdc]
      · rfl

/-- C12 as stated fails when the incoming reference is a handle to the cell
the guard itself holds: the cell is disposed first, so what is registered
afterwards is read from a released cell. Here the guard holds cell 0, which
refers to the number 5; after `SetPersistent(handle, handle)` the guard holds
cell 1, which does not refer to that value. -/
theorem C12_counterexample :
    SetPersistent (some 0) (.global 0)
        { objects := [], cells := [{ value := .number 5, disposals := 0, weak := false }],
          parents := [], scheduled := [] } =
      ({ objects := [],
         cells := [{ value := .number 5, disposals := 1, weak := false },
                   { value := .released 0, disposals := 0, weak := false }],
         parents := [], scheduled := [] },
        some 1) ∧
    (SetPersistent (some 0) (.global 0)
        { objects := [], cells := [{ value := .number 5, disposals := 0, weak := false }],
          parents := [], scheduled := [] }).1.read (.global 1) ≠
      Host.read
        { objects := [], cells := [{ value := .number 5, disposals := 0, weak := false }],
          parents := [], scheduled := [] } (.global 0) := by
  constructor
  · rfl
  · decide

/-- C12 amended. For every guard state and every incoming reference that is
not a handle to the cell the guard itself holds, `SetPersistent(handle, value)`
first clears the guard (nothing is disposed if it was empty, the disposal
count of its cell grows by exactly one if it held one) and then: if `value` is
empty the guard ends empty and no cell is registered; otherwise exactly one
fresh cell, with no disposal, is registered for what `value` refers to and the
guard holds it, so the guard refers to what `value` referred to. -/
theorem C12_set_contract_amended (handle : Persistent) (value : Handle) (host : Host)
    (hna : ∀ c, handle = some c → value ≠ .global c) :
    (handle = none → (ClearPersistent handle host).1 = host) ∧
    (∀ c cell, handle = some c → host.cells[c]? = some cell →
      (ClearPersistent handle host).1 =
        { host with
            cells := host.cells.set c { cell with disposals := cell.disposals + 1 } }) ∧
    (value.IsEmpty = true →
      SetPersistent handle value host = ((ClearPersistent handle host).1, none)) ∧
    (value.IsEmpty = false →
      ∃ v, host.read value = some v ∧
        SetPersistent handle value host =
          ({ (ClearPersistent handle host).1 with
              cells := (ClearPersistent handle host).1.cells ++
                [{ value := v, disposals := 0, weak := false }] },
            some host.cells.length) ∧
        (SetPersistent handle value host).1.read
            (Persistent.toHandle (SetPersistent handle value host).2) = host.read value) := by
  refine ⟨?_, ?_, ?_, ?_⟩
  · intro h
    subst h
    rfl
  · intro c cell h hc
    subst h
    rw [clearPersistent_some, dispose_cell c cell host hc]
  · intro he
    have h2 : (ClearPersistent handle host).2 = none := by cases handle <;> rfl
    simp only [SetPersistent, he, if_true]
    exact Prod.ext rfl h2
  · intro hne
    obtain ⟨v, hv⟩ := read_of_nonempty value host hne
    have hv1 : (ClearPersistent handle host).1.read value = some v := by
      rw [read_after_clear handle value host hna, hv]
    have hset := setPersistent_nonempty handle value host v hv1
    refine ⟨v, hv, hset, ?_⟩
    rw [hset, hv]
    simp [Persistent.toHandle, Host.read, ← clearPersistent_cells_length handle host]

/-- C12 amended, at a guard holding cell 0 and an incoming scoped reference to
the number 7. -/
theorem C12_set_contract_amended_witness :
    SetPersistent (some 0) (.scoped (.number 7))
        { objects := [], cells := [{ value := .number 5, disposals := 0, weak := false }],
          parents := [], scheduled := [] } =
      ({ objects := [],
         cells := [{ value := .number 5, disposals := 1, weak := false },
                   { value := .number 7, disposals := 0, weak := false }],
         parents := [], scheduled := [] },
        some 1) := by
  obtain ⟨v, hv, hset, -⟩ :=
    (C12_set_contract_amended (some 0) (.scoped (.number 7))
      { objects := [], cells := [{ value := .number 5, disposals := 0, weak := false }],
        parents := [], scheduled := [] } (by intro c _; simp)).2.2.2 rfl
  rw [hset]
  simp only [Host.read, Option.some.injEq] at hv
  subst hv
  rfl

/-! ## C13 -/

/-- `Persistent::New` either registers nothing (empty value) or appends one
live cell and returns a handle to it. -/
theorem new_cases (value : Handle) (host : Host) :
    Persistent.New value host = (host, none) ∨
    ∃ v, host.read value = some v ∧
      Persistent.New value host =
        ({ host with cells := host.cells ++ [{ value := v, disposals := 0, weak := false }] },
          some host.cells.length) := by
  cases h : host.read value with
  | none => left; simp [Persistent.New, h]
  | some v => right; exact ⟨v, rfl, new_of_read value host v h⟩

/-- `SetPersistent` is `Persistent::New` on the cleared host. -/
theorem setPersistent_eq_new (handle : Persistent) (value : Handle) (host : Host) :
    SetPersistent handle value host = Persistent.New value (ClearPersistent handle host).1 := by
  have h2 : (ClearPersistent handle host).2 = none := by cases handle <;> rfl
  rcases value with _ | v | c
  · simp only [SetPersistent, Handle.IsEmpty, if_true]
    exact Prod.ext rfl h2
  · rfl
  · rfl

namespace GuardHeap

theorem step_construct (s : GuardHeap) : s.step .construct = some (s.push .empty) := rfl

theorem step_constructFrom (s : GuardHeap) (value : Handle) :
    s.step (.constructFrom value) = some (s.push value) := rfl

theorem guard_alive (s : GuardHeap) (a : Nat) (p : Persistent)
    (h : s.guards[a]? = some (.alive p)) : s.guard a = some { addr := a, handle := p } := by
  simp [guard, h]

theorem guard_some (s : GuardHeap) (a : Nat) (g : Persisted) (h : s.guard a = some g) :
    s.guards[a]? = some (.alive g.handle) ∧ g.addr = a := by
  unfold guard at h
  split at h
  · rename_i p hp
    simp only [Option.some.injEq] at h
    subst h
    exact ⟨hp, rfl⟩
  · cases h

theorem step_copyFrom (s : GuardHeap) (o : Nat) (p : Persistent)
    (h : s.guards[o]? = some (.alive p)) :
    s.step (.copyFrom o) = some (s.push (Persistent.toHandle p)) := by
  simp only [step, guard_alive s o p h]
  rfl

theorem step_Clear (s : GuardHeap) (g : Nat) (p : Persistent)
    (h : s.guards[g]? = some (.alive p)) :
    s.step (.Clear g) = some (s.release g p (.alive none)) := by
  have h2 : (ClearPersistent p s.host).2 = none := by cases p <;> rfl
  simp only [step, guard_alive s g p h, Persisted.Clear, release, h2]

theorem step_destroy (s : GuardHeap) (g : Nat) (p : Persistent)
    (h : s.guards[g]? = some (.alive p)) :
    s.step (.destroy g) = some (s.release g p .destroyed) := by
  simp only [step, guard_alive s g p h, release]
  cases p <;> rfl

theorem set_same {α : Type} (l : List α) (i : Nat) (a : α) (h : l[i]? = some a) :
    l.set i a = l := by
  apply List.ext_getElem?
  intro j
  by_cases hj : i = j
  · subst hj
    have hi : i < l.length := by
      rcases Nat.lt_or_ge i l.length with h1 | h1
      · exact h1
      · rw [List.getElem?_eq_none h1] at h
        cases h
    simp [List.getElem?_set, hi, h]
  · simp [List.getElem?_set, hj]

theorem step_assign_self (s : GuardHeap) (g : Nat) (p : Persistent)
    (h : s.guards[g]? = some (.alive p)) : s.step (.assign g g) = some s := by
  simp only [step, guard_alive s g p h, Persisted.assign, if_true]
  rw [set_same _ _ _ h]

theorem step_assign (s : GuardHeap) (d o : Nat) (pd po : Persistent) (hne : d ≠ o)
    (hd : s.guards[d]? = some (.alive pd)) (ho : s.guards[o]? = some (.alive po)) :
    s.step (.assign d o) =
      some ((s.release d pd (.alive none)).attach d (Persistent.toHandle po)) := by
  have hne2 : ¬ o = d := fun h => hne h.symm
  simp only [step, guard_alive s d pd hd, guard_alive s o po ho, Persisted.assign, hne2,
    if_false, setPersistent_eq_new, attach, release, List.set_set]

end GuardHeap

theorem lt_of_getElem? {α : Type} (l : List α) (i : Nat) (a : α) (h : l[i]? = some a) :
    i < l.length := by
  rcases Nat.lt_or_ge i l.length with h1 | h1
  · exact h1
  · rw [List.getElem?_eq_none h1] at h
    cases h

theorem getElem?_push_iff {α : Type} (l : List α) (a x : α) (i : Nat) :
    (l ++ [a])[i]? = some x ↔ l[i]? = some x ∨ (i = l.length ∧ a = x) := by
  rcases Nat.lt_trichotomy i l.length with h | h | h
  · rw [List.getElem?_append_left h]
    constructor
    · intro h1; exact Or.inl h1
    · rintro (h1 | ⟨h1, -⟩)
      · exact h1
      · omega
  · subst h
    simp
  · have h1 : l.length ≤ i := by omega
    have h2 : (l ++ [a]).length ≤ i := by simp; omega
    rw [List.getElem?_eq_none h2, List.getElem?_eq_none h1]
    constructor
    · intro h3; cases h3
    · rintro (h3 | ⟨h3, -⟩)
      · cases h3
      · omega

theorem getElem?_set_iff {α : Type} (l : List α) (a x old : α) (i j : Nat)
    (h : l[i]? = some old) :
    (l.set i a)[j]? = some x ↔ (j = i ∧ a = x) ∨ (j ≠ i ∧ l[j]? = some x) := by
  have hi := lt_of_getElem? l i old h
  rw [List.getElem?_set]
  by_cases hij : i = j
  · subst hij
    simp [hi]
  · have hji : ¬ j = i := fun h1 => hij h1.symm
    simp [hij, hji]

namespace GuardHeap

theorem holds_push_iff (s : GuardHeap) (value : Handle) (g c : Nat) :
    (s.push value).holds g c ↔
      s.holds g c ∨ (g = s.guards.length ∧ (Persistent.New value s.host).2 = some c) := by
  simp only [holds, push, getElem?_push_iff, GuardSlot.alive.injEq]

theorem holds_release_iff (s : GuardHeap) (g : Nat) (p : Persistent) (slot : GuardSlot)
    (hg : s.guards[g]? = some (.alive p)) (hslot : slot = .alive none ∨ slot = .destroyed)
    (g2 c : Nat) :
    (s.release g p slot).holds g2 c ↔ g2 ≠ g ∧ s.holds g2 c := by
  simp only [holds, release, getElem?_set_iff _ _ _ _ _ _ hg]
  constructor
  · rintro (⟨-, h⟩ | h)
    · rcases hslot with h1 | h1 <;> simp [h1] at h
    · exact h
  · intro h
    exact Or.inr h

theorem holds_attach_iff (s : GuardHeap) (g : Nat) (value : Handle)
    (hg : s.guards[g]? = some (.alive none)) (g2 c : Nat) :
    (s.attach g value).holds g2 c ↔
      (g2 = g ∧ (Persistent.New value s.host).2 = some c) ∨ (g2 ≠ g ∧ s.holds g2 c) := by
  simp only [holds, attach, getElem?_set_iff _ _ _ _ _ _ hg, GuardSlot.alive.injEq]

theorem release_guard (s : GuardHeap) (g : Nat) (p : Persistent) (slot : GuardSlot)
    (hg : s.guards[g]? = some (.alive p)) : (s.release g p slot).guards[g]? = some slot := by
  simp [release, List.getElem?_set, lt_of_getElem? _ _ _ hg]

end GuardHeap

namespace GuardHeap

/-- The invariant survives a guard that holds nothing taking what
`Persistent::New(value)` gives. -/
theorem inv_acquire (cells0 : List Cell) (s t : GuardHeap) (hI : GuardInv cells0 s)
    (gnew : Nat) (value : Handle) (hhost : t.host = (Persistent.New value s.host).1)
    (hfree : ∀ c, ¬ s.holds gnew c)
    (hholds : ∀ g c, t.holds g c ↔
      (g = gnew ∧ (Persistent.New value s.host).2 = some c) ∨ (g ≠ gnew ∧ s.holds g c)) :
    GuardInv cells0 t := by
  have hold_keep : ∀ g c, s.holds g c → t.holds g c := by
    intro g c h
    refine (hholds g c).2 (Or.inr ⟨?_, h⟩)
    intro hg
    subst hg
    exact hfree c h
  rcases new_cases value s.host with hN | ⟨v, -, hN⟩
  · rw [hN] at hhost hholds
    have hiff : ∀ g c, t.holds g c → s.holds g c := by
      intro g c h
      rcases (hholds g c).1 h with ⟨-, h1⟩ | ⟨-, h1⟩
      · cases h1
      · exact h1
    refine ⟨?_, ?_, ?_, ?_, ?_⟩
    · intro c hc
      rw [hhost]
      exact hI.frame c hc
    · rw [hhost]
      exact hI.grow
    · intro g c h
      rw [hhost]
      exact hI.held_live g c (hiff g c h)
    · intro g g2 c h h2
      exact hI.unshared g g2 c (hiff g c h) (hiff g2 c h2)
    · intro c cell hc hcell
      rw [hhost] at hcell
      rcases hI.settled c cell hc hcell with ⟨g, hg⟩ | hd
      · exact Or.inl ⟨g, hold_keep g c hg⟩
      · exact Or.inr hd
  · rw [hN] at hhost hholds
    simp only [Option.some.injEq] at hholds
    have hcells : ∀ c cell, t.host.cells[c]? = some cell ↔
        s.host.cells[c]? = some cell ∨
          (c = s.host.cells.length ∧ { value := v, disposals := 0, weak := false } = cell) := by
      intro c cell
      rw [hhost]
      exact getElem?_push_iff _ _ _ _
    have hgrow := hI.grow
    refine ⟨?_, ?_, ?_, ?_, ?_⟩
    · intro c hc
      rw [hhost]
      simp only
      rw [List.getElem?_append_left (by omega)]
      exact hI.frame c hc
    · rw [hhost]
      simp only [List.length_append, List.length_singleton]
      omega
    · intro g c h
      rcases (hholds g c).1 h with ⟨-, h1⟩ | ⟨-, h1⟩
      · subst h1
        exact ⟨hgrow, _, (hcells _ _).2 (Or.inr ⟨rfl, rfl⟩), rfl⟩
      · obtain ⟨hb, cell, hcell, hd⟩ := hI.held_live g c h1
        exact ⟨hb, cell, (hcells _ _).2 (Or.inl hcell), hd⟩
    · intro g g2 c h h2
      rcases (hholds g c).1 h with ⟨hg, h1⟩ | ⟨-, h1⟩
      · rcases (hholds g2 c).1 h2 with ⟨hg2, -⟩ | ⟨-, h3⟩
        · rw [hg, hg2]
        · obtain ⟨-, cell, hcell, -⟩ := hI.held_live g2 c h3
          have := lt_of_getElem? _ _ _ hcell
          omega
      · rcases (hholds g2 c).1 h2 with ⟨-, h3⟩ | ⟨-, h3⟩
        · obtain ⟨-, cell, hcell, -⟩ := hI.held_live g c h1
          have := lt_of_getElem? _ _ _ hcell
          omega
        · exact hI.unshared g g2 c h1 h3
    · intro c cell hc hcell
      rcases (hcells c cell).1 hcell with h1 | ⟨h1, -⟩
      · rcases hI.settled c cell hc h1 with ⟨g, hg⟩ | hd
        · exact Or.inl ⟨g, hold_keep g c hg⟩
        · exact Or.inr hd
      · exact Or.inl ⟨gnew, (hholds gnew c).2 (Or.inl ⟨rfl, h1.symm⟩)⟩

theorem inv_push (cells0 : List Cell) (s : GuardHeap) (hI : GuardInv cells0 s)
    (value : Handle) : GuardInv cells0 (s.push value) := by
  have hfree : ∀ c, ¬ s.holds s.guards.length c := by
    intro c h
    have := lt_of_getElem? _ _ _ h
    omega
  refine inv_acquire cells0 s (s.push value) hI s.guards.length value rfl hfree ?_
  intro g c
  rw [holds_push_iff]
  constructor
  · rintro (h | h)
    · refine Or.inr ⟨?_, h⟩
      intro hg
      subst hg
      exact hfree c h
    · exact Or.inl h
  · rintro (h | ⟨-, h⟩)
    · exact Or.inr h
    · exact Or.inl h

theorem inv_attach (cells0 : List Cell) (s : GuardHeap) (hI : GuardInv cells0 s) (g : Nat)
    (value : Handle) (hg : s.guards[g]? = some (.alive none)) :
    GuardInv cells0 (s.attach g value) := by
  have hfree : ∀ c, ¬ s.holds g c := by
    intro c h
    simp [holds, hg] at h
  exact inv_acquire cells0 s (s.attach g value) hI g value rfl hfree
    (fun g2 c => holds_attach_iff s g value hg g2 c)

end GuardHeap

namespace GuardHeap

/-- What `release` does to the cells when the guard holds the live cell
`c0`. -/
theorem release_cells (s : GuardHeap) (g c0 : Nat) (slot : GuardSlot) (cell0 : Cell)
    (hcell0 : s.host.cells[c0]? = some cell0) :
    (s.release g (some c0) slot).host.cells =
      s.host.cells.set c0 { cell0 with disposals := cell0.disposals + 1 } := by
  simp only [release, clearPersistent_some, dispose_cell c0 cell0 s.host hcell0]

theorem inv_release (cells0 : List Cell) (s : GuardHeap) (hI : GuardInv cells0 s) (g : Nat)
    (p : Persistent) (slot : GuardSlot) (hg : s.guards[g]? = some (.alive p))
    (hslot : slot = .alive none ∨ slot = .destroyed) :
    GuardInv cells0 (s.release g p slot) := by
  have hholds := holds_release_iff s g p slot hg hslot
  cases p with
  | none =>
    have hhost : (s.release g none slot).host = s.host := rfl
    refine ⟨?_, ?_, ?_, ?_, ?_⟩
    · intro c hc
      rw [hhost]
      exact hI.frame c hc
    · rw [hhost]
      exact hI.grow
    · intro g2 c h
      rw [hhost]
      exact hI.held_live g2 c ((hholds g2 c).1 h).2
    · intro g2 g3 c h h3
      exact hI.unshared g2 g3 c ((hholds g2 c).1 h).2 ((hholds g3 c).1 h3).2
    · intro c cell hc hcell
      rw [hhost] at hcell
      rcases hI.settled c cell hc hcell with ⟨g2, hg2⟩ | hd
      · refine Or.inl ⟨g2, (hholds g2 c).2 ⟨?_, hg2⟩⟩
        intro h
        subst h
        simp [holds, hg] at hg2
      · exact Or.inr hd
  | some c0 =>
    have hgc0 : s.holds g c0 := hg
    obtain ⟨hb0, cell0, hcell0, hd0⟩ := hI.held_live g c0 hgc0
    have hcells := release_cells s g c0 slot cell0 hcell0
    have hother : ∀ g2 c, g2 ≠ g → s.holds g2 c → c ≠ c0 := by
      intro g2 c hne h hc
      subst hc
      exact hne (hI.unshared g2 g c h hgc0)
    refine ⟨?_, ?_, ?_, ?_, ?_⟩
    · intro c hc
      rw [hcells, List.getElem?_set]
      have : ¬ c0 = c := by omega
      simp only [this, if_false]
      exact hI.frame c hc
    · rw [hcells, List.length_set]
      exact hI.grow
    · intro g2 c h
      obtain ⟨hne, h2⟩ := (hholds g2 c).1 h
      obtain ⟨hb, cell, hcell, hd⟩ := hI.held_live g2 c h2
      refine ⟨hb, cell, ?_, hd⟩
      rw [hcells, getElem?_set_iff _ _ _ _ _ _ hcell0]
      exact Or.inr ⟨hother g2 c hne h2, hcell⟩
    · intro g2 g3 c h h3
      exact hI.unshared g2 g3 c ((hholds g2 c).1 h).2 ((hholds g3 c).1 h3).2
    · intro c cell hc hcell
      rw [hcells, getElem?_set_iff _ _ _ _ _ _ hcell0] at hcell
      rcases hcell with ⟨-, h1⟩ | ⟨hne, h1⟩
      · right
        rw [← h1]
        simp only
        omega
      · rcases hI.settled c cell hc h1 with ⟨g2, hg2⟩ | hd
        · refine Or.inl ⟨g2, (hholds g2 c).2 ⟨?_, hg2⟩⟩
          intro h
          subst h
          have : s.guards[g2]? = some (.alive (some c)) := hg2
          rw [hg] at this
          simp only [Option.some.injEq, GuardSlot.alive.injEq] at this
          exact hne this.symm
        · exact Or.inr hd

theorem progress_refl (s : GuardHeap) : s.Progress s :=
  ⟨fun _ _ h => Or.inl h, fun _ h => h⟩

theorem progress_trans (s t u : GuardHeap) (h1 : s.Progress t) (h2 : t.Progress u) :
    s.Progress u := by
  refine ⟨?_, fun c h => h2.2 c (h1.2 c h)⟩
  intro g c h
  rcases h1.1 g c h with h3 | h3
  · exact h2.1 g c h3
  · exact Or.inr (h2.2 c h3)

theorem progress_acquire (s t : GuardHeap) (gnew : Nat) (value : Handle)
    (hhost : t.host = (Persistent.New value s.host).1) (hfree : ∀ c, ¬ s.holds gnew c)
    (hholds : ∀ g c, t.holds g c ↔
      (g = gnew ∧ (Persistent.New value s.host).2 = some c) ∨ (g ≠ gnew ∧ s.holds g c)) :
    s.Progress t := by
  refine ⟨?_, ?_⟩
  · intro g c h
    refine Or.inl ((hholds g c).2 (Or.inr ⟨?_, h⟩))
    intro hg
    subst hg
    exact hfree c h
  · rintro c ⟨hno, cell, hcell, hd⟩
    have hlt := lt_of_getElem? _ _ _ hcell
    refine ⟨?_, cell, ?_, hd⟩
    · intro g h
      rcases (hholds g c).1 h with ⟨-, h1⟩ | ⟨-, h1⟩
      · rcases new_cases value s.host with hN | ⟨v, -, hN⟩
        · rw [hN] at h1
          cases h1
        · rw [hN] at h1
          simp only [Option.some.injEq] at h1
          omega
      · exact hno g h1
    · rcases new_cases value s.host with hN | ⟨v, -, hN⟩
      · rw [hhost, hN]
        exact hcell
      · rw [hhost, hN]
        simp only
        rw [List.getElem?_append_left hlt]
        exact hcell

theorem progress_release (cells0 : List Cell) (s : GuardHeap) (hI : GuardInv cells0 s)
    (g : Nat) (p : Persistent) (slot : GuardSlot) (hg : s.guards[g]? = some (.alive p))
    (hslot : slot = .alive none ∨ slot = .destroyed) :
    s.Progress (s.release g p slot) := by
  have hholds := holds_release_iff s g p slot hg hslot
  cases p with
  | none =>
    have hhost : (s.release g none slot).host = s.host := rfl
    refine ⟨?_, ?_⟩
    · intro g2 c h
      refine Or.inl ((hholds g2 c).2 ⟨?_, h⟩)
      intro hg2
      subst hg2
      simp [holds, hg] at h
    · rintro c ⟨hno, cell, hcell, hd⟩
      exact ⟨fun g2 h => hno g2 ((hholds g2 c).1 h).2, cell, by rw [hhost]; exact hcell, hd⟩
  | some c0 =>
    have hgc0 : s.holds g c0 := hg
    obtain ⟨-, cell0, hcell0, hd0⟩ := hI.held_live g c0 hgc0
    have hcells := release_cells s g c0 slot cell0 hcell0
    refine ⟨?_, ?_⟩
    · intro g2 c h
      by_cases hg2 : g2 = g
      · subst hg2
        have : s.guards[g2]? = some (.alive (some c)) := h
        rw [hg] at this
        simp only [Option.some.injEq, GuardSlot.alive.injEq] at this
        subst this
        right
        refine ⟨?_, { cell0 with disposals := cell0.disposals + 1 }, ?_, ?_⟩
        · intro g3 h3
          obtain ⟨hne, h4⟩ := (hholds g3 c0).1 h3
          exact hne (hI.unshared g3 g2 c0 h4 hgc0)
        · rw [hcells, getElem?_set_iff _ _ _ _ _ _ hcell0]
          exact Or.inl ⟨rfl, rfl⟩
        · simp only
          omega
      · exact Or.inl ((hholds g2 c).2 ⟨hg2, h⟩)
    · rintro c ⟨hno, cell, hcell, hd⟩
      refine ⟨fun g2 h => hno g2 ((hholds g2 c).1 h).2, cell, ?_, hd⟩
      rw [hcells, getElem?_set_iff _ _ _ _ _ _ hcell0]
      refine Or.inr ⟨?_, hcell⟩
      intro hc
      subst hc
      exact hno g hgc0

end GuardHeap

namespace GuardHeap

theorem progress_push (s : GuardHeap) (value : Handle) : s.Progress (s.push value) := by
  have hfree : ∀ c, ¬ s.holds s.guards.length c := by
    intro c h
    have := lt_of_getElem? _ _ _ h
    omega
  refine progress_acquire s (s.push value) s.guards.length value rfl hfree ?_
  intro g c
  rw [holds_push_iff]
  constructor
  · rintro (h | h)
    · refine Or.inr ⟨?_, h⟩
      intro hg
      subst hg
      exact hfree c h
    · exact Or.inl h
  · rintro (h | ⟨-, h⟩)
    · exact Or.inr h
    · exact Or.inl h

theorem progress_attach (s : GuardHeap) (g : Nat) (value : Handle)
    (hg : s.guards[g]? = some (.alive none)) : s.Progress (s.attach g value) := by
  have hfree : ∀ c, ¬ s.holds g c := by
    intro c h
    simp [holds, hg] at h
  exact progress_acquire s (s.attach g value) g value rfl hfree
    (fun g2 c => holds_attach_iff s g value hg g2 c)

/-- Every operation keeps the invariant and makes progress. -/
theorem step_inv (cells0 : List Cell) (s t : GuardHeap) (op : GuardOp)
    (hI : GuardInv cells0 s) (h : s.step op = some t) : GuardInv cells0 t ∧ s.Progress t := by
  cases op with
  | construct =>
    rw [step_construct] at h
    cases h
    exact ⟨inv_push cells0 s hI _, progress_push s _⟩
  | constructFrom value =>
    rw [step_constructFrom] at h
    cases h
    exact ⟨inv_push cells0 s hI _, progress_push s _⟩
  | copyFrom o =>
    cases hgo : s.guard o with
    | none => simp [step, hgo] at h
    | some b =>
      obtain ⟨hb, -⟩ := guard_some s o b hgo
      rw [step_copyFrom s o b.handle hb] at h
      cases h
      exact ⟨inv_push cells0 s hI _, progress_push s _⟩
  | assign d o =>
    cases hgd : s.guard d with
    | none => simp [step, hgd] at h
    | some a =>
      cases hgo : s.guard o with
      | none => simp [step, hgd, hgo] at h
      | some b =>
        obtain ⟨ha, -⟩ := guard_some s d a hgd
        obtain ⟨hb, -⟩ := guard_some s o b hgo
        by_cases hdo : d = o
        · subst hdo
          rw [step_assign_self s d a.handle ha] at h
          cases h
          exact ⟨hI, progress_refl s⟩
        · rw [step_assign s d o a.handle b.handle hdo ha hb] at h
          cases h
          have hI1 := inv_release cells0 s hI d a.handle (.alive none) ha (Or.inl rfl)
          have hP1 := progress_release cells0 s hI d a.handle (.alive none) ha (Or.inl rfl)
          have hg1 := release_guard s d a.handle (.alive none) ha
          exact ⟨inv_attach cells0 _ hI1 d _ hg1,
            progress_trans _ _ _ hP1 (progress_attach _ d _ hg1)⟩
  | Clear g =>
    cases hgg : s.guard g with
    | none => simp [step, hgg] at h
    | some a =>
      obtain ⟨ha, -⟩ := guard_some s g a hgg
      rw [step_Clear s g a.handle ha] at h
      cases h
      exact ⟨inv_release cells0 s hI g a.handle _ ha (Or.inl rfl),
        progress_release cells0 s hI g a.handle _ ha (Or.inl rfl)⟩
  | destroy g =>
    cases hgg : s.guard g with
    | none => simp [step, hgg] at h
    | some a =>
      obtain ⟨ha, -⟩ := guard_some s g a hgg
      rw [step_destroy s g a.handle ha] at h
      cases h
      exact ⟨inv_release cells0 s hI g a.handle _ ha (Or.inr rfl),
        progress_release cells0 s hI g a.handle _ ha (Or.inr rfl)⟩

/-- Every finite sequence of operations keeps the invariant and makes
progress. -/
theorem run_inv (cells0 : List Cell) (ops : List GuardOp) :
    ∀ (s t : GuardHeap), GuardInv cells0 s → s.run ops = some t →
      GuardInv cells0 t ∧ s.Progress t := by
  induction ops with
  | nil =>
    intro s t hI h
    simp only [run, Option.some.injEq] at h
    subst h
    exact ⟨hI, progress_refl s⟩
  | cons op ops ih =>
    intro s t hI h
    simp only [run] at h
    cases hs : s.step op with
    | none => simp [hs] at h
    | some s1 =>
      rw [hs] at h
      obtain ⟨hI1, hP1⟩ := step_inv cells0 s s1 op hI hs
      obtain ⟨hI2, hP2⟩ := ih s1 t hI1 h
      exact ⟨hI2, progress_trans _ _ _ hP1 hP2⟩

/-- Before any guard is made the invariant holds. -/
theorem inv_init (host0 : Host) : GuardInv host0.cells { host := host0, guards := [] } := by
  refine ⟨fun _ _ => rfl, Nat.le_refl _, ?_, ?_, ?_⟩
  · intro g c h
    simp [holds] at h
  · intro g g2 c h
    simp [holds] at h
  · intro c cell hc hcell
    have := lt_of_getElem? _ _ _ hcell
    simp only at this
    omega

end GuardHeap

namespace GuardHeap

/-- Copy-construction registers a fresh cell for the value the original
refers to; the original keeps its own cell. -/
theorem copy_registers (cells0 : List Cell) (s t : GuardHeap) (hI : GuardInv cells0 s)
    (o c : Nat) (ho : s.holds o c) (h : s.step (.copyFrom o) = some t) :
    ∃ cell, s.host.cells[c]? = some cell ∧ t.host.cells[c]? = some cell ∧
      t.holds o c ∧ t.holds s.guards.length s.host.cells.length ∧ s.host.cells.length ≠ c ∧
      t.host.cells[s.host.cells.length]? =
        some { value := cell.value, disposals := 0, weak := false } := by
  obtain ⟨-, cell, hcell, hd⟩ := hI.held_live o c ho
  have hlt := lt_of_getElem? _ _ _ hcell
  rw [step_copyFrom s o (some c) ho] at h
  cases h
  have hread : s.host.read (Persistent.toHandle (some c)) = some cell.value := by
    simp [Persistent.toHandle, Host.read, hcell, hd]
  have hN := new_of_read _ _ _ hread
  refine ⟨cell, hcell, ?_, ?_, ?_, by omega, ?_⟩
  · simp only [push, hN]
    rw [List.getElem?_append_left hlt]
    exact hcell
  · exact (holds_push_iff s _ o c).2 (Or.inl ho)
  · refine (holds_push_iff s _ _ _).2 (Or.inr ⟨rfl, ?_⟩)
    rw [hN]
  · simp only [push, hN]
    simp

/-- Clearing or destroying a guard leaves what another guard holds held and
live. -/
theorem other_guard_kept (cells0 : List Cell) (s u : GuardHeap) (hI : GuardInv cells0 s)
    (g g2 c2 : Nat) (hne : g2 ≠ g) (h2 : s.holds g2 c2)
    (h : s.step (.Clear g) = some u ∨ s.step (.destroy g) = some u) :
    u.holds g2 c2 ∧ ∃ cell, u.host.cells[c2]? = some cell ∧ cell.disposals = 0 := by
  have key : ∀ op, s.step op = some u → (op = .Clear g ∨ op = .destroy g) → u.holds g2 c2 := by
    intro op hop hcase
    cases hgg : s.guard g with
    | none => rcases hcase with h1 | h1 <;> (subst h1; simp [step, hgg] at hop)
    | some a =>
      obtain ⟨ha, -⟩ := guard_some s g a hgg
      rcases hcase with h1 | h1
      · subst h1
        rw [step_Clear s g a.handle ha] at hop
        cases hop
        exact (holds_release_iff s g a.handle _ ha (Or.inl rfl) g2 c2).2 ⟨hne, h2⟩
      · subst h1
        rw [step_destroy s g a.handle ha] at hop
        cases hop
        exact (holds_release_iff s g a.handle _ ha (Or.inr rfl) g2 c2).2 ⟨hne, h2⟩
  rcases h with h | h
  · have hu := key _ h (Or.inl rfl)
    exact ⟨hu, ((step_inv cells0 s u _ hI h).1.held_live g2 c2 hu).2⟩
  · have hu := key _ h (Or.inr rfl)
    exact ⟨hu, ((step_inv cells0 s u _ hI h).1.held_live g2 c2 hu).2⟩

end GuardHeap

/-- C13 (guard ownership invariant). Start from any host with no guard yet,
run any finite sequence of `Persisted` operations (construction empty or from
a reference, copy-construction, assignment, self-assignment included, `Clear`,
destruction) to a state `s1`, and any further sequence to a state `s2`. Then
in `s2`: every cell a guard holds was registered after the start and is live
(not disposed); no two guards hold the same cell; every cell registered
after the start is either held by a guard or has been disposed exactly once
(never twice, never left undisposed once unheld); the cells of before are
untouched. A cell a guard held in `s1` is in `s2` either still held by that
guard or held by nobody and disposed exactly once, the latter whenever the
guard has been destroyed. Copy-constructing from a guard registers a fresh
cell for the same value and leaves the original its own cell, and clearing or
destroying any guard leaves the cell of every other guard held and live. -/
theorem C13_guard_ownership (host0 : Host) (ops1 ops2 : List GuardOp) (s1 s2 : GuardHeap)
    (h1 : GuardHeap.run { host := host0, guards := [] } ops1 = some s1)
    (h2 : s1.run ops2 = some s2) :
    (∀ g c, s2.holds g c →
      host0.cells.length ≤ c ∧ ∃ cell, s2.host.cells[c]? = some cell ∧ cell.disposals = 0) ∧
    (∀ g g2 c, s2.holds g c → s2.holds g2 c → g = g2) ∧
    (∀ c cell, host0.cells.length ≤ c → s2.host.cells[c]? = some cell →
      (∃ g, s2.holds g c) ∨ cell.disposals = 1) ∧
    (∀ c, c < host0.cells.length → s2.host.cells[c]? = host0.cells[c]?) ∧
    (∀ g c, s1.holds g c → s2.holds g c ∨ s2.Settled c) ∧
    (∀ g c, s1.holds g c → s2.guards[g]? = some .destroyed → s2.Settled c) ∧
    (∀ o c t, s2.holds o c → s2.step (.copyFrom o) = some t →
      ∃ cell, s2.host.cells[c]? = some cell ∧ t.host.cells[c]? = some cell ∧
        t.holds o c ∧ t.holds s2.guards.length s2.host.cells.length ∧
        s2.host.cells.length ≠ c ∧
        t.host.cells[s2.host.cells.length]? =
          some { value := cell.value, disposals := 0, weak := false }) ∧
    (∀ g g2 c2 u, g2 ≠ g → s2.holds g2 c2 →
      (s2.step (.Clear g) = some u ∨ s2.step (.destroy g) = some u) →
      u.holds g2 c2 ∧ ∃ cell, u.host.cells[c2]? = some cell ∧ cell.disposals = 0) := by
  obtain ⟨hI1, -⟩ := GuardHeap.run_inv host0.cells ops1 _ s1 (GuardHeap.inv_init host0) h1
  obtain ⟨hI2, hP⟩ := GuardHeap.run_inv host0.cells ops2 s1 s2 hI1 h2
  refine ⟨hI2.held_live, hI2.unshared, hI2.settled, hI2.frame, hP.1, ?_, ?_, ?_⟩
  · intro g c hg hdead
    rcases hP.1 g c hg with h | h
    · have : s2.guards[g]? = some (.alive (some c)) := h
      rw [hdead] at this
      cases this
    · exact h
  · intro o c t ho ht
    exact GuardHeap.copy_registers host0.cells s2 t hI2 o c ho ht
  · intro g g2 c2 u hne hg2 hu
    exact GuardHeap.other_guard_kept host0.cells s2 u hI2 g g2 c2 hne hg2 hu

/-- C13 at a concrete run on the initial host: a guard is made from the
number 5 and copied (state `s1`, guard 0 holds cell 0); then the guard is
assigned to itself, assigned the copy, cleared and destroyed, and the copy is
destroyed. Cell 0, which guard 0 held, ends held by nobody and disposed
exactly once. -/
theorem C13_guard_ownership_witness :
    GuardHeap.run { host := Host.init, guards := [] }
        [.constructFrom (.scoped (.number 5)), .copyFrom 0] =
      some { host := { objects := [],
                       cells := [{ value := .number 5, disposals := 0, weak := false },
                                 { value := .number 5, disposals := 0, weak := false }],
                       parents := [], scheduled := [] },
             guards := [.alive (some 0), .alive (some 1)] } ∧
    GuardHeap.Settled
      { host := { objects := [],
                  cells := [{ value := .number 5, disposals := 1, weak := false },
                            { value := .number 5, disposals := 1, weak := false },
                            { value := .number 5, disposals := 1, weak := false }],
                  parents := [], scheduled := [] },
        guards := [.destroyed, .destroyed] } 0 :=
  ⟨rfl,
    (C13_guard_ownership Host.init [.constructFrom (.scoped (.number 5)), .copyFrom 0]
      [.assign 0 0, .assign 0 1, .Clear 0, .destroy 0, .destroy 1]
      { host := { objects := [],
                  cells := [{ value := .number 5, disposals := 0, weak := false },
                            { value := .number 5, disposals := 0, weak := false }],
                  parents := [], scheduled := [] },
        guards := [.alive (some 0), .alive (some 1)] }
      { host := { objects := [],
                  cells := [{ value := .number 5, disposals := 1, weak := false },
                            { value := .number 5, disposals := 1, weak := false },
                            { value := .number 5, disposals := 1, weak := false }],
                  parents := [], scheduled := [] },
        guards := [.destroyed, .destroyed] }
      rfl rfl).2.2.2.2.2.1 0 0 rfl rfl⟩

end v8u
